import Mathlib

/-!
Verification of the bifrost governance configuration store.

Shallow embedding of the Go sources:
* `configstore` (DbConfigStore: client/provider/key/virtual-key/vector-store/
  log-store persistence, startup repair migration),
* the HTTP config handlers (vector-store secret merge, backend migration
  orchestration in `DbHandler.UpdateDbState`).

Database tables are modelled as Lean lists of row structures; GORM operations
(`Create`, `Save`, `Delete`, `First`, association `Clear`/`Append`, `Preload`)
are translated into explicit list transformations.  Auto-increment primary
keys are modelled with an explicit `next id` counter.  External effects (the
`pgloader` bulk-transfer tool) are passed in as function parameters returning
`Except` values.
-/

namespace Bifrost

/-- Database-level errors, mirroring the distinction the Go code draws with
`errors.Is(err, gorm.ErrRecordNotFound)` versus any other storage error. -/
inductive DbErr where
  | recordNotFound
  | storage (msg : String)
deriving DecidableEq, Repr

/-- Modelled from the spec: the redaction sentinel is "a fixed placeholder
value returned in place of a secret on read".  The constant lives in the
`lib` package which is not part of the provided sources; only its fixedness
and distinguishability matter, so a fixed literal is used. -/
def redactionSentinel : String := "*****REDACTED*****"

/-- Modelled from the spec: `lib.IsRedacted` (not in the provided sources)
compares a submitted field against the redaction sentinel. -/
def isRedacted (v : String) : Bool := v == redactionSentinel

/-! ## Startup repair migration (legacy `config_keys` cleanup)

`DbConfigStore.removeDuplicateKeysAndNullKeys` (SQLite) and
`removeDuplicateKeysAndNullKeysPostgres`: delete rows with a NULL `key_id` or
NULL `value`, then delete every row that is not the minimum-id representative
of its `(key_id, value)` group.  A row of the legacy table: -/

structure ConfigKeyRow where
  id : Nat
  keyID : Option String
  value : Option String
deriving DecidableEq, Repr

/-- `DELETE FROM config_keys WHERE key_id IS NULL OR value IS NULL`
(`DbConfigStore.removeNullKeys`): the surviving rows. -/
def removeNullKeys (t : List ConfigKeyRow) : List ConfigKeyRow :=
  t.filter (fun r => r.keyID.isSome && r.value.isSome)

/-- The `(key_id, value)` bucket predicate of a `GROUP BY key_id, value`. -/
def sameKV (k v : Option String) (s : ConfigKeyRow) : Bool :=
  s.keyID == k && s.value == v

/-- The ids of the `(key_id, value)` group of `(k, v)` in table `t`
(the rows a `GROUP BY key_id, value` bucket contains). -/
def groupIds (t : List ConfigKeyRow) (k v : Option String) : List Nat :=
  (t.filter (sameKV k v)).map (·.id)

/-- Whether row id `i` is the `MIN(id)` of some `(key_id, value)` group of
`t`, i.e. whether `i` is in the `SELECT MIN(id) ... GROUP BY key_id, value`
result set. -/
def isGroupMin (t : List ConfigKeyRow) (i : Nat) : Bool :=
  t.any (fun s => (groupIds t s.keyID s.value).min? == some i)

/-- `DbConfigStore.removeDuplicateKeysAndNullKeys` (SQLite backend): skip when
the legacy table is absent; otherwise remove null rows, then keep exactly the
rows whose id is NOT absent from the grouped-minimum set (the
`DELETE ... WHERE id NOT IN (SELECT MIN(id) ... GROUP BY key_id, value)`
statement). -/
def removeDuplicateKeysAndNullKeys (tableExists : Bool) (t : List ConfigKeyRow) :
    List ConfigKeyRow :=
  if tableExists then
    let t1 := removeNullKeys t
    t1.filter (fun r => isGroupMin t1 r.id)
  else t

/-- The `ROW_NUMBER() OVER (PARTITION BY key_id, value ORDER BY id ASC)` of a
row: one plus the number of strictly smaller ids in its group (row ids are a
primary key, so ties on `id` do not occur in a real table). -/
def rowNumber (t : List ConfigKeyRow) (r : ConfigKeyRow) : Nat :=
  1 + ((t.filter (sameKV r.keyID r.value)).filter (fun s => s.id < r.id)).length

/-- `removeDuplicateKeysAndNullKeysPostgres`: same skip-if-absent and
null-row deletion, then delete the rows whose partition row number exceeds 1. -/
def removeDuplicateKeysAndNullKeysPostgres (tableExists : Bool)
    (t : List ConfigKeyRow) : List ConfigKeyRow :=
  if tableExists then
    let t1 := removeNullKeys t
    t1.filter (fun r => !(rowNumber t1 r > 1))
  else t

/-! ### Properties of the startup repair -/

lemma sameKV_iff {k v : Option String} {s : ConfigKeyRow} :
    sameKV k v s = true ↔ s.keyID = k ∧ s.value = v := by
  simp [sameKV]

lemma sameKV_self (r : ConfigKeyRow) : sameKV r.keyID r.value r = true := by
  simp [sameKV]

lemma mem_groupIds {t : List ConfigKeyRow} {k v : Option String} {i : Nat} :
    i ∈ groupIds t k v ↔ ∃ s, s ∈ t ∧ sameKV k v s = true ∧ s.id = i := by
  simp [groupIds, List.mem_map, List.mem_filter, and_assoc]

/-- Under distinct row ids, a row of `t` is in the grouped-minimum id set iff
it is minimal in its own `(key_id, value)` group. -/
lemma isGroupMin_iff {t : List ConfigKeyRow} (hnd : (t.map (·.id)).Nodup)
    {r : ConfigKeyRow} (hr : r ∈ t) :
    isGroupMin t r.id = true ↔
      ∀ s ∈ t, sameKV r.keyID r.value s = true → r.id ≤ s.id := by
  constructor
  · intro h
    rw [isGroupMin, List.any_eq_true] at h
    obtain ⟨w, hw, hmin⟩ := h
    rw [beq_iff_eq, List.min?_eq_some_iff'] at hmin
    obtain ⟨hmem, hle⟩ := hmin
    rw [mem_groupIds] at hmem
    obtain ⟨r', hr', hkv', hid'⟩ := hmem
    have hrr : r' = r := List.inj_on_of_nodup_map hnd hr' hr hid'
    subst hrr
    rw [sameKV_iff] at hkv'
    intro s hs hskv
    rw [sameKV_iff] at hskv
    have hsid : s.id ∈ groupIds t w.keyID w.value := by
      rw [mem_groupIds]
      refine ⟨s, hs, ?_, rfl⟩
      rw [sameKV_iff, hskv.1, hskv.2, hkv'.1, hkv'.2]
      exact ⟨rfl, rfl⟩
    exact hle _ hsid
  · intro h
    rw [isGroupMin, List.any_eq_true]
    refine ⟨r, hr, ?_⟩
    rw [beq_iff_eq, List.min?_eq_some_iff']
    constructor
    · rw [mem_groupIds]
      exact ⟨r, hr, sameKV_self r, rfl⟩
    · intro b hb
      rw [mem_groupIds] at hb
      obtain ⟨s, hs, hskv, hid⟩ := hb
      subst hid
      exact h s hs hskv

/-- A row's partition row number is 1 exactly when no row of its
`(key_id, value)` group has a smaller id. -/
lemma rowNumber_le_one_iff {t : List ConfigKeyRow} {r : ConfigKeyRow} :
    (!(rowNumber t r > 1)) = true ↔
      ∀ s ∈ t, sameKV r.keyID r.value s = true → r.id ≤ s.id := by
  simp only [rowNumber, Bool.not_eq_true', decide_eq_false_iff_not, gt_iff_lt,
    Nat.lt_add_right_iff_pos, Nat.pos_iff_ne_zero, ne_eq, not_not,
    List.length_eq_zero, List.filter_eq_nil_iff, List.mem_filter, not_lt]
  constructor
  · intro h s hs hskv
    simpa [not_lt] using h s ⟨hs, hskv⟩
  · intro h s hs
    simp only [decide_eq_true_eq, not_lt]
    exact h s hs.1 hs.2

lemma nodup_removeNullKeys_ids {t : List ConfigKeyRow}
    (hnd : (t.map (·.id)).Nodup) : ((removeNullKeys t).map (·.id)).Nodup :=
  (((List.filter_sublist t).map (·.id)).nodup hnd)

/-- Under distinct row ids the SQLite `NOT IN (SELECT MIN(id) ...)` deletion
and the Postgres `ROW_NUMBER() ... rn > 1` deletion keep the same rows. -/
lemma clean_sqlite_eq_postgres {t1 : List ConfigKeyRow}
    (hnd : (t1.map (·.id)).Nodup) :
    t1.filter (fun r => isGroupMin t1 r.id) =
      t1.filter (fun r => !(rowNumber t1 r > 1)) := by
  refine List.filter_congr ?_
  intro r hr
  rw [Bool.eq_iff_iff, isGroupMin_iff hnd hr, rowNumber_le_one_iff]

lemma length_eq_one_of_nodup_of_all_eq {α : Type} (l : List α) (hn : l.Nodup)
    (a : α) (ha : a ∈ l) (hall : ∀ x ∈ l, ∀ y ∈ l, x = y) : l.length = 1 := by
  cases l with
  | nil => cases ha
  | cons b bs =>
    cases bs with
    | nil => rfl
    | cons c cs =>
      exfalso
      have hb : b ∈ b :: c :: cs := List.mem_cons_self _ _
      have hc : c ∈ b :: c :: cs := List.mem_cons_of_mem _ (List.mem_cons_self _ _)
      have hbc : b = c := hall b hb c hc
      have := (List.nodup_cons.mp hn).1
      exact this (hbc ▸ List.mem_cons_self c cs)

lemma isSome_of_mem_removeNullKeys {t : List ConfigKeyRow} {r : ConfigKeyRow}
    (h : r ∈ removeNullKeys t) : r.keyID.isSome ∧ r.value.isSome := by
  have := List.of_mem_filter h
  rwa [Bool.and_eq_true] at this

lemma removeNullKeys_eq_self {l : List ConfigKeyRow}
    (h : ∀ r ∈ l, r.keyID.isSome ∧ r.value.isSome) : removeNullKeys l = l := by
  rw [removeNullKeys, List.filter_eq_self]
  intro r hr
  rw [Bool.and_eq_true]
  exact h r hr

/-- Re-running the SQLite grouped-minimum deletion on its own output removes
nothing further. -/
lemma clean_idem (t1 : List ConfigKeyRow)
    (hnn : ∀ r ∈ t1, r.keyID.isSome ∧ r.value.isSome) :
    removeDuplicateKeysAndNullKeys true
        (t1.filter (fun r => isGroupMin t1 r.id)) =
      t1.filter (fun r => isGroupMin t1 r.id) := by
  have hnull : removeNullKeys (t1.filter (fun r => isGroupMin t1 r.id)) =
      t1.filter (fun r => isGroupMin t1 r.id) :=
    removeNullKeys_eq_self (fun r hr => hnn r (List.mem_filter.mp hr).1)
  have h0 : removeDuplicateKeysAndNullKeys true
      (t1.filter (fun r => isGroupMin t1 r.id)) =
      (removeNullKeys (t1.filter (fun r => isGroupMin t1 r.id))).filter
        (fun r => isGroupMin
          (removeNullKeys (t1.filter (fun r => isGroupMin t1 r.id))) r.id) := rfl
  rw [h0, hnull, List.filter_eq_self]
  intro r hr
  obtain ⟨hrt1, hmin⟩ := List.mem_filter.mp hr
  rw [isGroupMin, List.any_eq_true] at hmin
  obtain ⟨s, hst1, hs⟩ := hmin
  rw [beq_iff_eq, List.min?_eq_some_iff'] at hs
  obtain ⟨hmem, hle⟩ := hs
  rw [mem_groupIds] at hmem
  obtain ⟨w, hwt1, hwkv, hwid⟩ := hmem
  have hwC : w ∈ t1.filter (fun r => isGroupMin t1 r.id) := by
    rw [List.mem_filter]
    refine ⟨hwt1, ?_⟩
    rw [isGroupMin, List.any_eq_true]
    refine ⟨s, hst1, ?_⟩
    rw [beq_iff_eq, hwid, List.min?_eq_some_iff']
    exact ⟨by rw [mem_groupIds]; exact ⟨w, hwt1, hwkv, hwid⟩, hle⟩
  rw [isGroupMin, List.any_eq_true]
  refine ⟨w, hwC, ?_⟩
  rw [beq_iff_eq, List.min?_eq_some_iff']
  have hwkv' := sameKV_iff.mp hwkv
  constructor
  · rw [mem_groupIds]
    exact ⟨w, hwC, sameKV_self w, hwid⟩
  · intro b hb
    rw [mem_groupIds] at hb
    obtain ⟨x, hxC, hxkv, hxid⟩ := hb
    have hxt1 : x ∈ t1 := (List.mem_filter.mp hxC).1
    have hbmem : b ∈ groupIds t1 s.keyID s.value := by
      rw [mem_groupIds]
      refine ⟨x, hxt1, ?_, hxid⟩
      rw [sameKV_iff] at hxkv ⊢
      rw [← hwkv'.1, ← hwkv'.2]
      exact hxkv
    exact hle _ hbmem

/-- Re-running the Postgres row-number deletion on its own output removes
nothing further. -/
lemma cleanP_idem (t1 : List ConfigKeyRow)
    (hnn : ∀ r ∈ t1, r.keyID.isSome ∧ r.value.isSome) :
    removeDuplicateKeysAndNullKeysPostgres true
        (t1.filter (fun r => !(rowNumber t1 r > 1))) =
      t1.filter (fun r => !(rowNumber t1 r > 1)) := by
  have hnull : removeNullKeys (t1.filter (fun r => !(rowNumber t1 r > 1))) =
      t1.filter (fun r => !(rowNumber t1 r > 1)) :=
    removeNullKeys_eq_self (fun r hr => hnn r (List.mem_filter.mp hr).1)
  have h0 : removeDuplicateKeysAndNullKeysPostgres true
      (t1.filter (fun r => !(rowNumber t1 r > 1))) =
      (removeNullKeys (t1.filter (fun r => !(rowNumber t1 r > 1)))).filter
        (fun r => !(rowNumber
          (removeNullKeys (t1.filter (fun r => !(rowNumber t1 r > 1)))) r > 1)) := rfl
  rw [h0, hnull, List.filter_eq_self]
  intro r hr
  obtain ⟨hrt1, hkeep⟩ := List.mem_filter.mp hr
  rw [rowNumber_le_one_iff] at hkeep ⊢
  intro s hs hskv
  exact hkeep s (List.mem_filter.mp hs).1 hskv

/-- In a table with pairwise-distinct `(key_id, value)` pairs, a row's group
is exactly itself. -/
lemma filter_sameKV_eq_singleton {t : List ConfigKeyRow} {r : ConfigKeyRow}
    (hpw : t.Pairwise (fun a b => ¬(a.keyID = b.keyID ∧ a.value = b.value)))
    (hr : r ∈ t) : t.filter (sameKV r.keyID r.value) = [r] := by
  induction t with
  | nil => cases hr
  | cons a t ih =>
    rw [List.pairwise_cons] at hpw
    obtain ⟨ha, hpw'⟩ := hpw
    rcases List.mem_cons.mp hr with rfl | hmem
    · rw [List.filter_cons, if_pos (sameKV_self r)]
      have ht : t.filter (sameKV r.keyID r.value) = [] := by
        rw [List.filter_eq_nil_iff]
        intro b hb hbkv
        rw [sameKV_iff] at hbkv
        exact ha b hb ⟨hbkv.1.symm, hbkv.2.symm⟩
      rw [ht]
    · have hpa : sameKV r.keyID r.value a = false := by
        by_contra hfa
        have : sameKV r.keyID r.value a = true := by
          cases h : sameKV r.keyID r.value a with
          | true => rfl
          | false => exact absurd h hfa
        rw [sameKV_iff] at this
        exact ha r hmem this
      rw [List.filter_cons, if_neg (by rw [hpa]; exact Bool.false_ne_true)]
      exact ih hpw' hmem

/-- A table already satisfying the no-null and `(key_id, value)`-uniqueness
invariants is untouched by either backend's repair. -/
lemma clean_of_unique (t : List ConfigKeyRow)
    (hnn : ∀ r ∈ t, r.keyID.isSome ∧ r.value.isSome)
    (hpw : t.Pairwise (fun a b => ¬(a.keyID = b.keyID ∧ a.value = b.value))) :
    removeDuplicateKeysAndNullKeys true t = t ∧
      removeDuplicateKeysAndNullKeysPostgres true t = t := by
  have hnull : removeNullKeys t = t := removeNullKeys_eq_self hnn
  constructor
  · have h1 : removeDuplicateKeysAndNullKeys true t =
        (removeNullKeys t).filter
          (fun r => isGroupMin (removeNullKeys t) r.id) := rfl
    rw [h1, hnull, List.filter_eq_self]
    intro r hr
    rw [isGroupMin, List.any_eq_true]
    refine ⟨r, hr, ?_⟩
    rw [beq_iff_eq, groupIds, filter_sameKV_eq_singleton hpw hr]
    rfl
  · have h2 : removeDuplicateKeysAndNullKeysPostgres true t =
        (removeNullKeys t).filter
          (fun r => !(rowNumber (removeNullKeys t) r > 1)) := rfl
    rw [h2, hnull, List.filter_eq_self]
    intro r hr
    rw [rowNumber_le_one_iff]
    intro s hs hskv
    have hsing := filter_sameKV_eq_singleton hpw hr
    have hsmem : s ∈ t.filter (sameKV r.keyID r.value) :=
      List.mem_filter.mpr ⟨hs, hskv⟩
    rw [hsing] at hsmem
    rcases List.mem_singleton.mp hsmem with rfl
    exact le_refl _

/-- C4: on a legacy table with distinct row ids, the startup repair first
deletes every row with a null key id or null value, then keeps, in every
`(key_id, value)` group, exactly the row with the minimum row id — leaving
exactly one row per pair that occurs non-null in the input; the Postgres
variant deletes exactly the same rows. -/
theorem C4_startup_repair_null_then_min
    (t : List ConfigKeyRow) (hnd : (t.map (·.id)).Nodup) :
    (∀ r ∈ removeDuplicateKeysAndNullKeys true t,
        r ∈ t ∧ r.keyID.isSome ∧ r.value.isSome ∧
          ∀ s ∈ removeNullKeys t,
            s.keyID = r.keyID → s.value = r.value → r.id ≤ s.id) ∧
    (∀ k v : String,
        (∃ s, s ∈ t ∧ s.keyID = some k ∧ s.value = some v) →
        ((removeDuplicateKeysAndNullKeys true t).filter
            (sameKV (some k) (some v))).length = 1) ∧
    removeDuplicateKeysAndNullKeysPostgres true t =
      removeDuplicateKeysAndNullKeys true t := by
  have hnd1 : ((removeNullKeys t).map (·.id)).Nodup := nodup_removeNullKeys_ids hnd
  have hout : removeDuplicateKeysAndNullKeys true t =
      (removeNullKeys t).filter
        (fun r => isGroupMin (removeNullKeys t) r.id) := rfl
  refine ⟨?_, ?_, ?_⟩
  · intro r hr
    rw [hout, List.mem_filter] at hr
    obtain ⟨hrt1, hmin⟩ := hr
    have hrt : r ∈ t := (List.mem_filter.mp hrt1).1
    have hnn := isSome_of_mem_removeNullKeys hrt1
    refine ⟨hrt, hnn.1, hnn.2, ?_⟩
    intro s hs hsk hsv
    exact (isGroupMin_iff hnd1 hrt1).mp hmin s hs
      (by rw [sameKV_iff]; exact ⟨hsk, hsv⟩)
  · intro k v hex
    obtain ⟨s, hst, hsk, hsv⟩ := hex
    have hst1 : s ∈ removeNullKeys t := by
      rw [removeNullKeys, List.mem_filter]
      refine ⟨hst, ?_⟩
      rw [hsk, hsv]
      rfl
    have hsgid : s.id ∈ groupIds (removeNullKeys t) (some k) (some v) := by
      rw [mem_groupIds]
      exact ⟨s, hst1, by rw [sameKV_iff]; exact ⟨hsk, hsv⟩, rfl⟩
    obtain ⟨m0, hm0⟩ :
        ∃ m0, (groupIds (removeNullKeys t) (some k) (some v)).min? = some m0 := by
      cases hm : (groupIds (removeNullKeys t) (some k) (some v)).min? with
      | none =>
        rw [List.min?_eq_none_iff] at hm
        rw [hm] at hsgid
        cases hsgid
      | some b => exact ⟨b, rfl⟩
    rw [List.min?_eq_some_iff'] at hm0
    obtain ⟨hm0mem, hm0le⟩ := hm0
    rw [mem_groupIds] at hm0mem
    obtain ⟨m, hmt1, hmkv, hmid⟩ := hm0mem
    have hmkv' := sameKV_iff.mp hmkv
    have hmmin : ∀ s' ∈ removeNullKeys t,
        sameKV m.keyID m.value s' = true → m.id ≤ s'.id := by
      intro s' hs' hskv'
      rw [sameKV_iff, hmkv'.1, hmkv'.2] at hskv'
      have hmem' : s'.id ∈ groupIds (removeNullKeys t) (some k) (some v) := by
        rw [mem_groupIds]
        exact ⟨s', hs', by rw [sameKV_iff]; exact hskv', rfl⟩
      rw [hmid]
      exact hm0le _ hmem'
    have hmout : m ∈ removeDuplicateKeysAndNullKeys true t := by
      rw [hout, List.mem_filter]
      exact ⟨hmt1, (isGroupMin_iff hnd1 hmt1).mpr hmmin⟩
    have hmL : m ∈ (removeDuplicateKeysAndNullKeys true t).filter
        (sameKV (some k) (some v)) := List.mem_filter.mpr ⟨hmout, hmkv⟩
    have hsubt1 : ((removeDuplicateKeysAndNullKeys true t).filter
        (sameKV (some k) (some v))).Sublist (removeNullKeys t) := by
      rw [hout]
      exact (List.filter_sublist _).trans (List.filter_sublist _)
    have hndL : ((removeDuplicateKeysAndNullKeys true t).filter
        (sameKV (some k) (some v))).Nodup :=
      List.Nodup.of_map (·.id) ((hsubt1.map (·.id)).nodup hnd1)
    refine length_eq_one_of_nodup_of_all_eq _ hndL m hmL ?_
    intro x hx y hy
    obtain ⟨hxout, hxkv⟩ := List.mem_filter.mp hx
    obtain ⟨hyout, hykv⟩ := List.mem_filter.mp hy
    rw [hout, List.mem_filter] at hxout hyout
    have hxkv' := sameKV_iff.mp hxkv
    have hykv' := sameKV_iff.mp hykv
    have hxy : x.id ≤ y.id :=
      (isGroupMin_iff hnd1 hxout.1).mp hxout.2 y hyout.1
        (by rw [sameKV_iff, hxkv'.1, hxkv'.2]; exact hykv')
    have hyx : y.id ≤ x.id :=
      (isGroupMin_iff hnd1 hyout.1).mp hyout.2 x hxout.1
        (by rw [sameKV_iff, hykv'.1, hykv'.2]; exact hxkv')
    exact List.inj_on_of_nodup_map hnd1 hxout.1 hyout.1 (Nat.le_antisymm hxy hyx)
  · have h2 : removeDuplicateKeysAndNullKeysPostgres true t =
        (removeNullKeys t).filter
          (fun r => !(rowNumber (removeNullKeys t) r > 1)) := rfl
    rw [hout, h2, clean_sqlite_eq_postgres hnd1]

/-- Witness for C4 at a concrete legacy table with one duplicate pair and one
null row. -/
theorem C4_startup_repair_null_then_min_witness :
    ((removeDuplicateKeysAndNullKeys true
        [⟨1, some "k1", some "v1"⟩, ⟨2, some "k1", some "v1"⟩,
         ⟨3, none, some "x"⟩]).filter
        (sameKV (some "k1") (some "v1"))).length = 1 :=
  (C4_startup_repair_null_then_min
      [⟨1, some "k1", some "v1"⟩, ⟨2, some "k1", some "v1"⟩, ⟨3, none, some "x"⟩]
      (by decide)).2.1 "k1" "v1"
    ⟨⟨1, some "k1", some "v1"⟩, by decide, rfl, rfl⟩

/-- C5: the startup repair is idempotent on both backends, is a no-op on a
table already satisfying the no-null and `(key_id, value)`-uniqueness
invariants, and performs no deletion when the legacy table is absent. -/
theorem C5_startup_repair_idempotent :
    (∀ t, removeDuplicateKeysAndNullKeys true
        (removeDuplicateKeysAndNullKeys true t) =
        removeDuplicateKeysAndNullKeys true t) ∧
    (∀ t, removeDuplicateKeysAndNullKeysPostgres true
        (removeDuplicateKeysAndNullKeysPostgres true t) =
        removeDuplicateKeysAndNullKeysPostgres true t) ∧
    (∀ t, (∀ r ∈ t, r.keyID.isSome ∧ r.value.isSome) →
        t.Pairwise (fun a b => ¬(a.keyID = b.keyID ∧ a.value = b.value)) →
        removeDuplicateKeysAndNullKeys true t = t ∧
          removeDuplicateKeysAndNullKeysPostgres true t = t) ∧
    (∀ t, removeDuplicateKeysAndNullKeys false t = t ∧
        removeDuplicateKeysAndNullKeysPostgres false t = t) := by
  refine ⟨?_, ?_, ?_, ?_⟩
  · intro t
    have h1 : removeDuplicateKeysAndNullKeys true t =
        (removeNullKeys t).filter
          (fun r => isGroupMin (removeNullKeys t) r.id) := rfl
    rw [h1]
    exact clean_idem _ (fun r hr => isSome_of_mem_removeNullKeys hr)
  · intro t
    have h2 : removeDuplicateKeysAndNullKeysPostgres true t =
        (removeNullKeys t).filter
          (fun r => !(rowNumber (removeNullKeys t) r > 1)) := rfl
    rw [h2]
    exact cleanP_idem _ (fun r hr => isSome_of_mem_removeNullKeys hr)
  · intro t hnn hpw
    exact clean_of_unique t hnn hpw
  · intro t
    exact ⟨rfl, rfl⟩

/-- Witness for C5 at a concrete already-clean table and an absent table. -/
theorem C5_startup_repair_idempotent_witness :
    removeDuplicateKeysAndNullKeys true
        [⟨1, some "k1", some "v1"⟩, ⟨2, some "k2", some "v2"⟩] =
      [⟨1, some "k1", some "v1"⟩, ⟨2, some "k2", some "v2"⟩] ∧
    removeDuplicateKeysAndNullKeys false [⟨5, none, none⟩] = [⟨5, none, none⟩] :=
  ⟨(C5_startup_repair_idempotent.2.2.1
      [⟨1, some "k1", some "v1"⟩, ⟨2, some "k2", some "v2"⟩]
      (by decide) (by decide)).1,
   (C5_startup_repair_idempotent.2.2.2 [⟨5, none, none⟩]).1⟩

/-! ## Provider / Key persistence (`DbConfigStore.UpdateProvidersConfig`)

`schemas.NetworkConfig`, `schemas.ConcurrencyAndBufferSize` and the
vendor-specific key sub-configurations are carried through the store
unchanged; they are modelled with the fields the provided sources read.
Pass-through payloads the store never inspects (proxy and custom provider
configuration) are modelled as strings. -/

structure NetworkConfig where
  baseURL : String
  defaultRequestTimeoutInSeconds : Nat
  extraHeaders : List (String × String)
deriving DecidableEq, Repr

structure ConcurrencyAndBufferSize where
  concurrency : Nat
  bufferSize : Nat
deriving DecidableEq, Repr

structure AzureKeyConfig where
  endpoint : String
  apiVersion : Option String
deriving DecidableEq, Repr

structure VertexKeyConfig where
  projectID : String
  region : String
  authCredentials : String
deriving DecidableEq, Repr

structure BedrockKeyConfig where
  accessKey : String
  secretKey : String
  sessionToken : Option String
  region : Option String
  arn : Option String
deriving DecidableEq, Repr

/-- `schemas.Key`: a provider credential as submitted by callers. -/
structure Key where
  id : String
  value : String
  models : List String
  weight : Int
  azureKeyConfig : Option AzureKeyConfig
  vertexKeyConfig : Option VertexKeyConfig
  bedrockKeyConfig : Option BedrockKeyConfig
deriving DecidableEq, Repr

/-- `configstore.ProviderConfig`: the fields `UpdateProvidersConfig` copies. -/
structure ProviderConfig where
  keys : List Key
  networkConfig : NetworkConfig
  concurrencyAndBufferSize : ConcurrencyAndBufferSize
  proxyConfig : Option String
  sendBackRawResponse : Bool
  customProviderConfig : Option String
deriving DecidableEq, Repr

/-- A `TableProvider` row. -/
structure TableProvider where
  id : Nat
  name : String
  networkConfig : NetworkConfig
  concurrencyAndBufferSize : ConcurrencyAndBufferSize
  proxyConfig : Option String
  sendBackRawResponse : Bool
  customProviderConfig : Option String
deriving DecidableEq, Repr

/-- A `TableKey` row, including the flattened vendor-specific columns
`UpdateProvidersConfig` populates from the sub-configurations. -/
structure TableKey where
  id : Nat
  provider : String
  providerID : Nat
  keyID : String
  value : String
  models : List String
  weight : Int
  azureKeyConfig : Option AzureKeyConfig
  vertexKeyConfig : Option VertexKeyConfig
  bedrockKeyConfig : Option BedrockKeyConfig
  azureEndpoint : Option String
  azureAPIVersion : Option String
  vertexProjectID : Option String
  vertexRegion : Option String
  vertexAuthCredentials : Option String
  bedrockAccessKey : Option String
  bedrockSecretKey : Option String
  bedrockSessionToken : Option String
  bedrockRegion : Option String
  bedrockARN : Option String
deriving DecidableEq, Repr

/-- The provider/key slice of the store, with auto-increment counters for the
two tables' primary keys. -/
structure ProvidersDB where
  providers : List TableProvider
  keys : List TableKey
  nextProviderId : Nat
  nextKeyId : Nat
deriving DecidableEq, Repr

/-- Building the `TableKey` row for a submitted key, as the loop body of
`UpdateProvidersConfig` does (row id 0 = unset, assigned on insert). -/
def mkDbKey (providerName : String) (providerID : Nat) (k : Key) : TableKey :=
  { id := 0
    provider := providerName
    providerID := providerID
    keyID := k.id
    value := k.value
    models := k.models
    weight := k.weight
    azureKeyConfig := k.azureKeyConfig
    vertexKeyConfig := k.vertexKeyConfig
    bedrockKeyConfig := k.bedrockKeyConfig
    azureEndpoint := k.azureKeyConfig.map (·.endpoint)
    azureAPIVersion := k.azureKeyConfig.bind (·.apiVersion)
    vertexProjectID := k.vertexKeyConfig.map (·.projectID)
    vertexRegion := k.vertexKeyConfig.map (·.region)
    vertexAuthCredentials := k.vertexKeyConfig.map (·.authCredentials)
    bedrockAccessKey := k.bedrockKeyConfig.map (·.accessKey)
    bedrockSecretKey := k.bedrockKeyConfig.map (·.secretKey)
    bedrockSessionToken := k.bedrockKeyConfig.bind (·.sessionToken)
    bedrockRegion := k.bedrockKeyConfig.bind (·.region)
    bedrockARN := k.bedrockKeyConfig.bind (·.arn) }

/-- Accumulator of the primary-key ordered `First`: keep the smaller id. -/
def minByIdAcc (acc : Option TableKey) (r : TableKey) : Option TableKey :=
  match acc with
  | none => some r
  | some a => if r.id < a.id then some r else some a

/-- `tx.Where("key_id = ?", kid).First(&existingKey)`: the matching row with
the smallest primary key, or none. -/
def firstKeyByKeyId (keys : List TableKey) (kid : String) : Option TableKey :=
  (keys.filter (fun r => r.keyID == kid)).foldl minByIdAcc none

/-- `tx.Save(&dbKey)` with `dbKey.ID` set to an existing primary key:
update-in-place by primary key. -/
def saveKeyRow (keys : List TableKey) (row : TableKey) : List TableKey :=
  keys.map (fun r => if r.id == row.id then row else r)

/-- The per-key upsert of `UpdateProvidersConfig`: look up by natural key id;
if found, keep the storage row id and overwrite every field (`Save`);
otherwise insert (`Create`). -/
def upsertKey (st : ProvidersDB) (row : TableKey) : ProvidersDB :=
  match firstKeyByKeyId st.keys row.keyID with
  | some existing =>
      { st with keys := saveKeyRow st.keys { row with id := existing.id } }
  | none =>
      { st with
        keys := st.keys ++ [{ row with id := st.nextKeyId }]
        nextKeyId := st.nextKeyId + 1 }

/-- One iteration of the provider loop of `UpdateProvidersConfig`: create the
provider row, then upsert each of its keys. -/
def applyProvider (st : ProvidersDB) (entry : String × ProviderConfig) :
    ProvidersDB :=
  let pid := st.nextProviderId
  let st1 : ProvidersDB :=
    { st with
      providers := st.providers ++
        [{ id := pid
           name := entry.1
           networkConfig := entry.2.networkConfig
           concurrencyAndBufferSize := entry.2.concurrencyAndBufferSize
           proxyConfig := entry.2.proxyConfig
           sendBackRawResponse := entry.2.sendBackRawResponse
           customProviderConfig := entry.2.customProviderConfig }]
      nextProviderId := pid + 1 }
  (entry.2.keys.map (mkDbKey entry.1 pid)).foldl upsertKey st1

/-- `DbConfigStore.UpdateProvidersConfig`: inside one transaction, delete all
provider rows, then recreate every submitted provider and upsert its keys.
The delete statement targets the provider table only and the SQLite
connection is opened without foreign-key enforcement, so key rows survive it;
that is what lets the upsert-by-natural-key find and preserve existing key
rows.  The Go provider map is modelled as an association list, which covers
every iteration order. -/
def UpdateProvidersConfig (st : ProvidersDB)
    (providers : List (String × ProviderConfig)) : ProvidersDB :=
  providers.foldl applyProvider { st with providers := [] }

/-- The storage identity of a key row: its primary key and natural key id. -/
def keyRowSig (r : TableKey) : Nat × String := (r.id, r.keyID)

/-- Well-formedness the database guarantees for the key table: primary keys
are below the auto-increment counter and pairwise distinct. -/
def ProvidersDB.WF (st : ProvidersDB) : Prop :=
  (∀ r ∈ st.keys, r.id < st.nextKeyId) ∧ (st.keys.map (·.id)).Nodup

/-- A key table contains a row carrying exactly the fields of `trow`
(with whatever storage row id it was given). -/
def Settled (keys : List TableKey) (trow : TableKey) : Prop :=
  ∃ r ∈ keys, r = { trow with id := r.id }

/-- All natural key ids submitted across a provider set. -/
def globalKids (ps : List (String × ProviderConfig)) : List String :=
  (ps.map (fun e => e.2.keys.map (·.id))).flatten

/-! ### Lookup and save-row properties -/

/-- A natural key id has a row in the table. -/
def hasKid (keys : List TableKey) (kid : String) : Prop :=
  ∃ r ∈ keys, r.keyID = kid

lemma minByIdAcc_some (a r : TableKey) :
    minByIdAcc (some a) r = some (if r.id < a.id then r else a) := by
  rw [minByIdAcc]
  split <;> rfl

lemma foldl_minByIdAcc_some (l : List TableKey) (a : TableKey) :
    ∃ e, l.foldl minByIdAcc (some a) = some e := by
  induction l generalizing a with
  | nil => exact ⟨a, rfl⟩
  | cons b l ih =>
    rw [List.foldl_cons, minByIdAcc_some]
    exact ih _

lemma foldl_minByIdAcc_mem (l : List TableKey) :
    ∀ (acc : Option TableKey) (e : TableKey),
      l.foldl minByIdAcc acc = some e → acc = some e ∨ e ∈ l := by
  induction l with
  | nil => intro acc e h; exact Or.inl h
  | cons a l ih =>
    intro acc e h
    rw [List.foldl_cons] at h
    rcases ih _ e h with hacc | hmem
    · cases acc with
      | none =>
        rw [minByIdAcc] at hacc
        right
        rw [← Option.some_inj.mp hacc]
        exact List.mem_cons_self _ _
      | some b =>
        rw [minByIdAcc_some] at hacc
        by_cases hab : a.id < b.id
        · rw [if_pos hab] at hacc
          right
          rw [← Option.some_inj.mp hacc]
          exact List.mem_cons_self _ _
        · rw [if_neg hab] at hacc
          left
          rw [hacc]
    · right
      exact List.mem_cons_of_mem _ hmem

lemma firstKeyByKeyId_mem {keys : List TableKey} {kid : String} {e : TableKey}
    (h : firstKeyByKeyId keys kid = some e) : e ∈ keys ∧ e.keyID = kid := by
  rcases foldl_minByIdAcc_mem _ _ _ h with hacc | hmem
  · cases hacc
  · have := List.mem_filter.mp hmem
    exact ⟨this.1, by have := this.2; rwa [beq_iff_eq] at this⟩

lemma firstKeyByKeyId_isSome_of_hasKid {keys : List TableKey} {kid : String}
    (h : hasKid keys kid) : ∃ e, firstKeyByKeyId keys kid = some e := by
  obtain ⟨r, hr, hk⟩ := h
  have hrf : r ∈ keys.filter (fun r => r.keyID == kid) :=
    List.mem_filter.mpr ⟨hr, by rw [beq_iff_eq]; exact hk⟩
  rw [firstKeyByKeyId]
  cases hfil : keys.filter (fun r => r.keyID == kid) with
  | nil => rw [hfil] at hrf; cases hrf
  | cons a l =>
    rw [List.foldl_cons]
    rw [show minByIdAcc none a = some a from rfl]
    exact foldl_minByIdAcc_some l a

lemma saveKeyRow_map_ids (keys : List TableKey) (row : TableKey) :
    (saveKeyRow keys row).map (·.id) = keys.map (·.id) := by
  rw [saveKeyRow, List.map_map]
  refine List.map_congr_left ?_
  intro r _
  by_cases h : (r.id == row.id) = true
  · simp only [Function.comp_apply, if_pos h]
    exact (beq_iff_eq.mp h).symm
  · simp only [Function.comp_apply, if_neg h]

lemma saveKeyRow_map_sig {keys : List TableKey}
    (hnd : (keys.map (·.id)).Nodup) {e : TableKey} (he : e ∈ keys)
    {row : TableKey} (hid : row.id = e.id) (hkid : row.keyID = e.keyID) :
    (saveKeyRow keys row).map keyRowSig = keys.map keyRowSig := by
  rw [saveKeyRow, List.map_map]
  refine List.map_congr_left ?_
  intro r hr
  by_cases h : (r.id == row.id) = true
  · have hre : r = e := List.inj_on_of_nodup_map hnd hr he
      ((beq_iff_eq.mp h).trans hid)
    simp only [Function.comp_apply, if_pos h]
    rw [keyRowSig, keyRowSig, hre, hid, hkid]
  · simp only [Function.comp_apply, if_neg h]

lemma mem_saveKeyRow_of_mem {keys : List TableKey} {r : TableKey}
    (hr : r ∈ keys) (row : TableKey) :
    (if r.id == row.id then row else r) ∈ saveKeyRow keys row :=
  List.mem_map_of_mem _ hr

/-! ### Single-upsert invariants -/

lemma upsertKey_WF {st : ProvidersDB} (h : st.WF) (row : TableKey) :
    (upsertKey st row).WF := by
  rw [upsertKey]
  cases hf : firstKeyByKeyId st.keys row.keyID with
  | some e =>
    refine ⟨?_, ?_⟩
    · intro r hr
      have hid : r.id ∈ (saveKeyRow st.keys { row with id := e.id }).map (·.id) :=
        List.mem_map_of_mem _ hr
      rw [saveKeyRow_map_ids] at hid
      obtain ⟨r0, hr0, hr0id⟩ := List.mem_map.mp hid
      exact hr0id ▸ h.1 r0 hr0
    · rw [saveKeyRow_map_ids]
      exact h.2
  | none =>
    refine ⟨?_, ?_⟩
    · intro r hr
      rcases List.mem_append.mp hr with hold | hnew
      · exact Nat.lt_succ_of_lt (h.1 r hold)
      · rw [List.mem_singleton.mp hnew]
        exact Nat.lt_succ_self _
    · rw [List.map_append, List.nodup_append]
      refine ⟨h.2, List.nodup_singleton _, ?_⟩
      intro a ha hb
      rw [List.map_singleton, List.mem_singleton] at hb
      obtain ⟨r0, hr0, hr0id⟩ := List.mem_map.mp ha
      have := h.1 r0 hr0
      rw [hr0id, hb] at this
      exact absurd this (Nat.lt_irrefl _)

lemma upsertKey_hasKid_self {st : ProvidersDB} (_h : st.WF) (row : TableKey) :
    hasKid (upsertKey st row).keys row.keyID := by
  rw [upsertKey]
  cases hf : firstKeyByKeyId st.keys row.keyID with
  | some e =>
    obtain ⟨he, _⟩ := firstKeyByKeyId_mem hf
    refine ⟨{ row with id := e.id }, ?_, rfl⟩
    have := mem_saveKeyRow_of_mem he { row with id := e.id }
    rwa [if_pos (by rw [beq_iff_eq])] at this
  | none =>
    exact ⟨{ row with id := st.nextKeyId },
      List.mem_append.mpr (Or.inr (List.mem_singleton_self _)), rfl⟩

lemma upsertKey_hasKid_mono {st : ProvidersDB} (h : st.WF) (row : TableKey)
    {k : String} (hp : hasKid st.keys k) : hasKid (upsertKey st row).keys k := by
  obtain ⟨r, hr, hrk⟩ := hp
  rw [upsertKey]
  cases hf : firstKeyByKeyId st.keys row.keyID with
  | some e =>
    obtain ⟨he, hek⟩ := firstKeyByKeyId_mem hf
    by_cases hre : (r.id == ({ row with id := e.id } : TableKey).id) = true
    · have hreq : r = e :=
        List.inj_on_of_nodup_map h.2 hr he (beq_iff_eq.mp hre)
      refine ⟨{ row with id := e.id }, ?_, ?_⟩
      · have := mem_saveKeyRow_of_mem he { row with id := e.id }
        rwa [if_pos (by rw [beq_iff_eq])] at this
      · show row.keyID = k
        rw [← hek, ← hreq]
        exact hrk
    · refine ⟨r, ?_, hrk⟩
      have := mem_saveKeyRow_of_mem hr { row with id := e.id }
      rwa [if_neg hre] at this
  | none =>
    exact ⟨r, List.mem_append.mpr (Or.inl hr), hrk⟩

lemma upsertKey_sig {st : ProvidersDB} (h : st.WF) {row : TableKey}
    (hp : hasKid st.keys row.keyID) :
    (upsertKey st row).keys.map keyRowSig = st.keys.map keyRowSig := by
  obtain ⟨e, hf⟩ := firstKeyByKeyId_isSome_of_hasKid hp
  obtain ⟨he, hek⟩ := firstKeyByKeyId_mem hf
  rw [upsertKey, hf]
  exact saveKeyRow_map_sig h.2 he rfl hek.symm

lemma keyID_of_settled {trow r : TableKey}
    (h : r = { trow with id := r.id }) : r.keyID = trow.keyID := by
  rw [h]

lemma upsertKey_settled_mono {st : ProvidersDB} (h : st.WF) {row trow : TableKey}
    (hne : row.keyID ≠ trow.keyID) (hs : Settled st.keys trow) :
    Settled (upsertKey st row).keys trow := by
  obtain ⟨r, hr, hreq⟩ := hs
  rw [upsertKey]
  cases hf : firstKeyByKeyId st.keys row.keyID with
  | some e =>
    obtain ⟨he, hek⟩ := firstKeyByKeyId_mem hf
    have hne' : (r.id == ({ row with id := e.id } : TableKey).id) = false := by
      rw [beq_eq_false_iff_ne]
      intro hid
      have hreqe : r = e := List.inj_on_of_nodup_map h.2 hr he hid
      have : r.keyID = trow.keyID := keyID_of_settled hreq
      rw [hreqe, hek] at this
      exact hne this
    refine ⟨r, ?_, hreq⟩
    have := mem_saveKeyRow_of_mem hr { row with id := e.id }
    rwa [hne'] at this
  | none =>
    exact ⟨r, List.mem_append.mpr (Or.inl hr), hreq⟩

lemma upsertKey_settled_self {st : ProvidersDB} (_h : st.WF) (row : TableKey) :
    Settled (upsertKey st row).keys row := by
  rw [upsertKey]
  cases hf : firstKeyByKeyId st.keys row.keyID with
  | some e =>
    obtain ⟨he, _⟩ := firstKeyByKeyId_mem hf
    refine ⟨{ row with id := e.id }, ?_, rfl⟩
    have := mem_saveKeyRow_of_mem he { row with id := e.id }
    rwa [if_pos (by rw [beq_iff_eq])] at this
  | none =>
    exact ⟨{ row with id := st.nextKeyId },
      List.mem_append.mpr (Or.inr (List.mem_singleton_self _)), rfl⟩

/-! ### Fold-level invariants for the key upsert loop -/

lemma foldl_upsertKey_WF :
    ∀ (rows : List TableKey) (st : ProvidersDB), st.WF →
      (rows.foldl upsertKey st).WF := by
  intro rows
  induction rows with
  | nil => intro st h; exact h
  | cons row rows ih =>
    intro st h
    rw [List.foldl_cons]
    exact ih _ (upsertKey_WF h row)

lemma foldl_upsertKey_hasKid_mono :
    ∀ (rows : List TableKey) (st : ProvidersDB), st.WF → ∀ k,
      hasKid st.keys k → hasKid (rows.foldl upsertKey st).keys k := by
  intro rows
  induction rows with
  | nil => intro st _ k hp; exact hp
  | cons row rows ih =>
    intro st h k hp
    rw [List.foldl_cons]
    exact ih _ (upsertKey_WF h row) k (upsertKey_hasKid_mono h row hp)

lemma foldl_upsertKey_hasKid_rows :
    ∀ (rows : List TableKey) (st : ProvidersDB), st.WF →
      ∀ row ∈ rows, hasKid (rows.foldl upsertKey st).keys row.keyID := by
  intro rows
  induction rows with
  | nil => intro st _ row hrow; cases hrow
  | cons row0 rows ih =>
    intro st h row hrow
    rw [List.foldl_cons]
    rcases List.mem_cons.mp hrow with rfl | hmem
    · exact foldl_upsertKey_hasKid_mono rows _ (upsertKey_WF h row) _
        (upsertKey_hasKid_self h row)
    · exact ih _ (upsertKey_WF h row0) row hmem

lemma foldl_upsertKey_sig :
    ∀ (rows : List TableKey) (st : ProvidersDB), st.WF →
      (∀ row ∈ rows, hasKid st.keys row.keyID) →
      (rows.foldl upsertKey st).keys.map keyRowSig = st.keys.map keyRowSig := by
  intro rows
  induction rows with
  | nil => intro st _ _; rfl
  | cons row rows ih =>
    intro st h hp
    rw [List.foldl_cons]
    have h1 : (upsertKey st row).keys.map keyRowSig = st.keys.map keyRowSig :=
      upsertKey_sig h (hp row (List.mem_cons_self _ _))
    have hp' : ∀ row' ∈ rows, hasKid (upsertKey st row).keys row'.keyID := by
      intro row' hrow'
      exact upsertKey_hasKid_mono h row (hp row' (List.mem_cons_of_mem _ hrow'))
    rw [ih _ (upsertKey_WF h row) hp', h1]

lemma foldl_upsertKey_settled_mono :
    ∀ (rows : List TableKey) (st : ProvidersDB) (trow : TableKey), st.WF →
      (∀ row ∈ rows, row.keyID ≠ trow.keyID) →
      Settled st.keys trow → Settled (rows.foldl upsertKey st).keys trow := by
  intro rows
  induction rows with
  | nil => intro st trow _ _ hs; exact hs
  | cons row rows ih =>
    intro st trow h hne hs
    rw [List.foldl_cons]
    exact ih _ _ (upsertKey_WF h row)
      (fun row' hrow' => hne row' (List.mem_cons_of_mem _ hrow'))
      (upsertKey_settled_mono h (hne row (List.mem_cons_self _ _)) hs)

lemma foldl_upsertKey_settled_rows :
    ∀ (rows : List TableKey) (st : ProvidersDB), st.WF →
      (rows.map (·.keyID)).Nodup →
      ∀ trow ∈ rows, Settled (rows.foldl upsertKey st).keys trow := by
  intro rows
  induction rows with
  | nil => intro st _ _ trow htrow; cases htrow
  | cons row rows ih =>
    intro st h hnd trow htrow
    rw [List.map_cons, List.nodup_cons] at hnd
    rw [List.foldl_cons]
    rcases List.mem_cons.mp htrow with rfl | hmem
    · refine foldl_upsertKey_settled_mono rows _ _ (upsertKey_WF h trow) ?_
        (upsertKey_settled_self h trow)
      intro row' hrow' hk
      exact hnd.1 (hk ▸ List.mem_map_of_mem (·.keyID) hrow')
    · exact ih _ (upsertKey_WF h row) hnd.2 trow hmem

/-! ### Provider-loop invariants -/

/-- The state after `tx.Create(&dbProvider)` in one provider-loop iteration. -/
def withProvider (st : ProvidersDB) (entry : String × ProviderConfig) :
    ProvidersDB :=
  { st with
    providers := st.providers ++
      [{ id := st.nextProviderId
         name := entry.1
         networkConfig := entry.2.networkConfig
         concurrencyAndBufferSize := entry.2.concurrencyAndBufferSize
         proxyConfig := entry.2.proxyConfig
         sendBackRawResponse := entry.2.sendBackRawResponse
         customProviderConfig := entry.2.customProviderConfig }]
    nextProviderId := st.nextProviderId + 1 }

lemma applyProvider_keys_fold (st : ProvidersDB) (entry : String × ProviderConfig) :
    applyProvider st entry =
      ((entry.2.keys.map (mkDbKey entry.1 st.nextProviderId)).foldl upsertKey
        (withProvider st entry)) := rfl

lemma withProvider_WF {st : ProvidersDB} (h : st.WF)
    (entry : String × ProviderConfig) : (withProvider st entry).WF := h

lemma withProvider_keys (st : ProvidersDB) (entry : String × ProviderConfig) :
    (withProvider st entry).keys = st.keys := rfl

lemma applyProvider_WF {st : ProvidersDB} (h : st.WF)
    (entry : String × ProviderConfig) : (applyProvider st entry).WF := by
  rw [applyProvider_keys_fold]
  exact foldl_upsertKey_WF _ _ (withProvider_WF h entry)

lemma applyProvider_hasKid_mono {st : ProvidersDB} (h : st.WF)
    (entry : String × ProviderConfig) {k : String} (hp : hasKid st.keys k) :
    hasKid (applyProvider st entry).keys k := by
  rw [applyProvider_keys_fold]
  refine foldl_upsertKey_hasKid_mono _ (withProvider st entry)
    (withProvider_WF h entry) k ?_
  rw [withProvider_keys]
  exact hp

lemma applyProvider_hasKid_rows {st : ProvidersDB} (h : st.WF)
    (entry : String × ProviderConfig) :
    ∀ k ∈ entry.2.keys, hasKid (applyProvider st entry).keys k.id := by
  intro k hk
  rw [applyProvider_keys_fold]
  exact foldl_upsertKey_hasKid_rows _ (withProvider st entry)
    (withProvider_WF h entry) (mkDbKey entry.1 st.nextProviderId k)
    (List.mem_map_of_mem _ hk)

lemma applyProvider_sig {st : ProvidersDB} (h : st.WF)
    (entry : String × ProviderConfig)
    (hp : ∀ k ∈ entry.2.keys, hasKid st.keys k.id) :
    (applyProvider st entry).keys.map keyRowSig = st.keys.map keyRowSig := by
  rw [applyProvider_keys_fold]
  have := foldl_upsertKey_sig (entry.2.keys.map (mkDbKey entry.1 st.nextProviderId))
    (withProvider st entry) (withProvider_WF h entry) ?_
  · rw [this, withProvider_keys]
  · intro row hrow
    obtain ⟨k, hk, hkrow⟩ := List.mem_map.mp hrow
    rw [withProvider_keys, ← hkrow]
    exact hp k hk

lemma applyProvider_settled_mono {st : ProvidersDB} (h : st.WF)
    (entry : String × ProviderConfig) {trow : TableKey}
    (hne : ∀ k ∈ entry.2.keys, k.id ≠ trow.keyID)
    (hs : Settled st.keys trow) : Settled (applyProvider st entry).keys trow := by
  rw [applyProvider_keys_fold]
  refine foldl_upsertKey_settled_mono _ (withProvider st entry) _
    (withProvider_WF h entry) ?_ ?_
  · intro row hrow
    obtain ⟨k, hk, hkrow⟩ := List.mem_map.mp hrow
    rw [← hkrow]
    exact hne k hk
  · rw [withProvider_keys]
    exact hs

lemma applyProvider_settled_rows {st : ProvidersDB} (h : st.WF)
    (entry : String × ProviderConfig)
    (hnd : (entry.2.keys.map (·.id)).Nodup) :
    ∀ k ∈ entry.2.keys,
      Settled (applyProvider st entry).keys
        (mkDbKey entry.1 st.nextProviderId k) := by
  intro k hk
  rw [applyProvider_keys_fold]
  refine foldl_upsertKey_settled_rows _ (withProvider st entry)
    (withProvider_WF h entry) ?_ _ (List.mem_map_of_mem _ hk)
  have hmap : (entry.2.keys.map (mkDbKey entry.1 st.nextProviderId)).map (·.keyID)
      = entry.2.keys.map (·.id) := by
    rw [List.map_map]
    exact List.map_congr_left (fun k _ => rfl)
  rw [hmap]
  exact hnd

/-! ### The provider-set fold and claim C1 -/

lemma globalKids_cons (e : String × ProviderConfig)
    (ps : List (String × ProviderConfig)) :
    globalKids (e :: ps) = e.2.keys.map (·.id) ++ globalKids ps := by
  rw [globalKids, List.map_cons, List.flatten_cons]
  rfl

lemma foldl_applyProvider_WF :
    ∀ (ps : List (String × ProviderConfig)) (st : ProvidersDB), st.WF →
      (ps.foldl applyProvider st).WF := by
  intro ps
  induction ps with
  | nil => intro st h; exact h
  | cons e ps ih =>
    intro st h
    rw [List.foldl_cons]
    exact ih _ (applyProvider_WF h e)

lemma foldl_applyProvider_hasKid_mono :
    ∀ (ps : List (String × ProviderConfig)) (st : ProvidersDB), st.WF → ∀ k,
      hasKid st.keys k → hasKid (ps.foldl applyProvider st).keys k := by
  intro ps
  induction ps with
  | nil => intro st _ k hp; exact hp
  | cons e ps ih =>
    intro st h k hp
    rw [List.foldl_cons]
    exact ih _ (applyProvider_WF h e) k (applyProvider_hasKid_mono h e hp)

lemma foldl_applyProvider_hasKid_rows :
    ∀ (ps : List (String × ProviderConfig)) (st : ProvidersDB), st.WF →
      ∀ e ∈ ps, ∀ k ∈ e.2.keys,
        hasKid (ps.foldl applyProvider st).keys k.id := by
  intro ps
  induction ps with
  | nil => intro st _ e he; cases he
  | cons e0 ps ih =>
    intro st h e he k hk
    rw [List.foldl_cons]
    rcases List.mem_cons.mp he with rfl | hmem
    · exact foldl_applyProvider_hasKid_mono ps _ (applyProvider_WF h e) k.id
        (applyProvider_hasKid_rows h e k hk)
    · exact ih _ (applyProvider_WF h e0) e hmem k hk

lemma foldl_applyProvider_sig :
    ∀ (ps : List (String × ProviderConfig)) (st : ProvidersDB), st.WF →
      (∀ e ∈ ps, ∀ k ∈ e.2.keys, hasKid st.keys k.id) →
      (ps.foldl applyProvider st).keys.map keyRowSig = st.keys.map keyRowSig := by
  intro ps
  induction ps with
  | nil => intro st _ _; rfl
  | cons e ps ih =>
    intro st h hp
    rw [List.foldl_cons]
    have h1 : (applyProvider st e).keys.map keyRowSig = st.keys.map keyRowSig :=
      applyProvider_sig h e (hp e (List.mem_cons_self _ _))
    have hp' : ∀ e' ∈ ps, ∀ k ∈ e'.2.keys,
        hasKid (applyProvider st e).keys k.id := by
      intro e' he' k hk
      exact applyProvider_hasKid_mono h e
        (hp e' (List.mem_cons_of_mem _ he') k hk)
    rw [ih _ (applyProvider_WF h e) hp', h1]

lemma foldl_applyProvider_settled_mono :
    ∀ (ps : List (String × ProviderConfig)) (st : ProvidersDB)
      (trow : TableKey), st.WF →
      (∀ e ∈ ps, ∀ k ∈ e.2.keys, k.id ≠ trow.keyID) →
      Settled st.keys trow →
      Settled (ps.foldl applyProvider st).keys trow := by
  intro ps
  induction ps with
  | nil => intro st trow _ _ hs; exact hs
  | cons e ps ih =>
    intro st trow h hne hs
    rw [List.foldl_cons]
    exact ih _ _ (applyProvider_WF h e)
      (fun e' he' => hne e' (List.mem_cons_of_mem _ he'))
      (applyProvider_settled_mono h e (hne e (List.mem_cons_self _ _)) hs)

lemma foldl_applyProvider_settled_rows :
    ∀ (ps : List (String × ProviderConfig)) (st : ProvidersDB), st.WF →
      (globalKids ps).Nodup →
      ∀ e ∈ ps, ∀ k ∈ e.2.keys,
        ∃ pid, Settled (ps.foldl applyProvider st).keys (mkDbKey e.1 pid k) := by
  intro ps
  induction ps with
  | nil => intro st _ _ e he; cases he
  | cons e0 ps ih =>
    intro st h hnd e he k hk
    rw [globalKids_cons, List.nodup_append] at hnd
    rw [List.foldl_cons]
    rcases List.mem_cons.mp he with rfl | hmem
    · refine ⟨st.nextProviderId, ?_⟩
      refine foldl_applyProvider_settled_mono ps _ _ (applyProvider_WF h e) ?_
        (applyProvider_settled_rows h e hnd.1 k hk)
      intro e' he' k' hk' hkid
      have hk'mem : k'.id ∈ globalKids ps := by
        rw [globalKids, List.mem_flatten]
        exact ⟨e'.2.keys.map (·.id), List.mem_map_of_mem _ he',
          List.mem_map_of_mem _ hk'⟩
      have hkmem : (mkDbKey e.1 st.nextProviderId k).keyID ∈ e.2.keys.map (·.id) :=
        List.mem_map_of_mem _ hk
      rw [← hkid] at hkmem
      exact hnd.2.2 hkmem hk'mem
    · exact ih _ (applyProvider_WF h e0) hnd.2.1 e hmem k hk

/-- C1: submitting the same provider set twice through
`UpdateProvidersConfig` leaves the key table's storage identities — the list
of (row id, natural key id) pairs — unchanged: every key row found by its
natural key id keeps its row id, and no duplicate row is created for any
natural key id.  Moreover (when the submitted natural ids are pairwise
distinct) every submitted key ends up stored with exactly the submitted
field values. -/
theorem C1_provider_resubmission_upserts_in_place
    (st : ProvidersDB) (ps : List (String × ProviderConfig)) (hwf : st.WF) :
    (UpdateProvidersConfig (UpdateProvidersConfig st ps) ps).keys.map keyRowSig =
      (UpdateProvidersConfig st ps).keys.map keyRowSig ∧
    ((globalKids ps).Nodup →
      ∀ e ∈ ps, ∀ k ∈ e.2.keys,
        ∃ pid r,
          r ∈ (UpdateProvidersConfig (UpdateProvidersConfig st ps) ps).keys ∧
            r = { mkDbKey e.1 pid k with id := r.id }) := by
  have hst0 : ProvidersDB.WF { st with providers := [] } := hwf
  have hwf1 : (UpdateProvidersConfig st ps).WF :=
    foldl_applyProvider_WF ps _ hst0
  have hpresent1 : ∀ e ∈ ps, ∀ k ∈ e.2.keys,
      hasKid (UpdateProvidersConfig st ps).keys k.id :=
    foldl_applyProvider_hasKid_rows ps _ hst0
  have hst1' :
      ProvidersDB.WF { UpdateProvidersConfig st ps with providers := [] } := hwf1
  constructor
  · exact foldl_applyProvider_sig ps
      { UpdateProvidersConfig st ps with providers := [] } hst1' hpresent1
  · intro hnd e he k hk
    obtain ⟨pid, hsettled⟩ := foldl_applyProvider_settled_rows ps
      { UpdateProvidersConfig st ps with providers := [] } hst1' hnd e he k hk
    obtain ⟨r, hr, hreq⟩ := hsettled
    exact ⟨pid, r, hr, hreq⟩

/-- The §8 scenario provider set: provider "openai" with one key. -/
def c1ExampleProviders : List (String × ProviderConfig) :=
  [("openai",
    { keys := [{ id := "k1", value := "sk-abc", models := [], weight := 1,
                 azureKeyConfig := none, vertexKeyConfig := none,
                 bedrockKeyConfig := none }]
      networkConfig := { baseURL := "", defaultRequestTimeoutInSeconds := 0,
                         extraHeaders := [] }
      concurrencyAndBufferSize := { concurrency := 0, bufferSize := 0 }
      proxyConfig := none
      sendBackRawResponse := false
      customProviderConfig := none })]

/-- An empty store (fresh database). -/
def emptyProvidersDB : ProvidersDB :=
  { providers := [], keys := [], nextProviderId := 1, nextKeyId := 1 }

/-- Witness for C1 at the §8 scenario input. -/
theorem C1_provider_resubmission_upserts_in_place_witness :
    (UpdateProvidersConfig (UpdateProvidersConfig emptyProvidersDB
          c1ExampleProviders) c1ExampleProviders).keys.map keyRowSig =
      (UpdateProvidersConfig emptyProvidersDB c1ExampleProviders).keys.map
        keyRowSig ∧
    ((globalKids c1ExampleProviders).Nodup →
      ∀ e ∈ c1ExampleProviders, ∀ k ∈ e.2.keys,
        ∃ pid r,
          r ∈ (UpdateProvidersConfig (UpdateProvidersConfig emptyProvidersDB
                c1ExampleProviders) c1ExampleProviders).keys ∧
            r = { mkDbKey e.1 pid k with id := r.id }) :=
  C1_provider_resubmission_upserts_in_place emptyProvidersDB c1ExampleProviders
    (by constructor
        · intro r hr
          cases hr
        · decide)

/-! ## Singleton configuration domains

`configstore.ClientConfig` (the handler in the sources also reads a
`MaxRequestBodySizeMB` field, which `UpdateClientConfig` does not persist)
and its table row. -/

structure ClientConfig where
  dropExcessRequests : Bool
  initialPoolSize : Nat
  prometheusLabels : List String
  enableLogging : Bool
  enableGovernance : Bool
  enforceGovernanceHeader : Bool
  allowDirectKeys : Bool
  allowedOrigins : List String
  maxRequestBodySizeMB : Nat
deriving DecidableEq, Repr

structure TableClientConfig where
  dropExcessRequests : Bool
  initialPoolSize : Nat
  enableLogging : Bool
  enableGovernance : Bool
  enforceGovernanceHeader : Bool
  allowDirectKeys : Bool
  prometheusLabels : List String
  allowedOrigins : List String
deriving DecidableEq, Repr

/-- `vectorstore.WeaviateConfig` (fields used by the sources and the UI). -/
structure WeaviateConfig where
  scheme : String
  host : String
  apiKey : String
deriving DecidableEq, Repr

/-- `vectorstore.RedisConfig` (fields used by the sources and the UI). -/
structure RedisConfig where
  addr : String
  username : String
  password : String
  db : Int
deriving DecidableEq, Repr

/-- The dynamic value carried by the Go `any`-typed `vectorstore.Config.Config`
field: a typed backend configuration, a string holding the JSON serialization
of a value (`jsonOf v` models a `*string` whose text encodes `v`), or Go nil. -/
inductive VSDyn where
  | weav (c : WeaviateConfig)
  | red (c : RedisConfig)
  | jsonOf (v : VSDyn)
  | null
deriving DecidableEq, Repr

/-- `vectorstore.Config`. -/
structure VectorStoreConfig where
  enabled : Bool
  typ : String
  config : VSDyn
deriving DecidableEq, Repr

/-- `TableVectorStoreConfig`: the JSON column is a nullable string. -/
structure TableVectorStoreConfig where
  typ : String
  enabled : Bool
  config : Option VSDyn
deriving DecidableEq, Repr

/-- `logstore.Config`: the store marshals and unmarshals it as a whole; the
connection parameters it never inspects are modelled as one string. -/
structure LogStoreConfig where
  enabled : Bool
  typ : String
  params : String
deriving DecidableEq, Repr

/-- `TableLogStoreConfig`: nullable JSON column holding a whole
`logstore.Config` (none models both NULL and the empty string). -/
structure TableLogStoreConfig where
  enabled : Bool
  typ : String
  config : Option LogStoreConfig
deriving DecidableEq, Repr

/-- The singleton-domain slice of the configuration store. -/
structure ConfigDB where
  clientConfigs : List TableClientConfig
  vectorStoreConfigs : List TableVectorStoreConfig
  logStoreConfigs : List TableLogStoreConfig
deriving DecidableEq, Repr

/-- An empty store (fresh database). -/
def emptyConfigDB : ConfigDB := ⟨[], [], []⟩

/-- `db.First(&x)`: the first row by primary key, or `gorm.ErrRecordNotFound`. -/
def firstRow {α : Type} (rows : List α) : Except DbErr α :=
  match rows.head? with
  | none => .error .recordNotFound
  | some r => .ok r

/-- The row `UpdateClientConfig` builds from the submitted config. -/
def toTableClientConfig (config : ClientConfig) : TableClientConfig :=
  { dropExcessRequests := config.dropExcessRequests
    initialPoolSize := config.initialPoolSize
    enableLogging := config.enableLogging
    enableGovernance := config.enableGovernance
    enforceGovernanceHeader := config.enforceGovernanceHeader
    allowDirectKeys := config.allowDirectKeys
    prometheusLabels := config.prometheusLabels
    allowedOrigins := config.allowedOrigins }

/-- `DbConfigStore.UpdateClientConfig`: inside one transaction, delete every
existing row and create one new row. -/
def UpdateClientConfig (st : ConfigDB) (config : ClientConfig) : ConfigDB :=
  { st with clientConfigs := [toTableClientConfig config] }

/-- `DbConfigStore.UpdateClientConfig` with the transaction's failure
behaviour explicit: `db.Transaction` rolls the whole replace back when either
statement fails, leaving the previous state authoritative. -/
def UpdateClientConfigTx (st : ConfigDB) (config : ClientConfig)
    (deleteFails createFails : Bool) : ConfigDB × Option DbErr :=
  if deleteFails then (st, some (.storage "delete failed"))
  else if createFails then (st, some (.storage "create failed"))
  else (UpdateClientConfig st config, none)

/-- `DbConfigStore.GetClientConfig`: absent row is returned as `nil, nil`;
fields not stored in the row come back as Go zero values. -/
def GetClientConfig (st : ConfigDB) : Except DbErr (Option ClientConfig) :=
  match firstRow st.clientConfigs with
  | .error .recordNotFound => .ok none
  | .error e => .error e
  | .ok db =>
      .ok (some
        { dropExcessRequests := db.dropExcessRequests
          initialPoolSize := db.initialPoolSize
          prometheusLabels := db.prometheusLabels
          enableLogging := db.enableLogging
          enableGovernance := db.enableGovernance
          enforceGovernanceHeader := db.enforceGovernanceHeader
          allowDirectKeys := db.allowDirectKeys
          allowedOrigins := db.allowedOrigins
          maxRequestBodySizeMB := 0 })

/-- `DbConfigStore.UpdateVectorStoreConfig`: delete-all then create, storing
`bifrost.MarshalToStringPtr(config.Config)` — a string column whose text
serializes the submitted inner config. -/
def UpdateVectorStoreConfig (st : ConfigDB) (config : VectorStoreConfig) :
    ConfigDB :=
  { st with vectorStoreConfigs :=
      [{ typ := config.typ
         enabled := config.enabled
         config := some (.jsonOf config.config) }] }

/-- `DbConfigStore.GetVectorStoreConfig`: absent row is `nil, nil`; otherwise
the row's fields are returned as stored — the inner config comes back as the
raw string column value, not re-typed. -/
def GetVectorStoreConfig (st : ConfigDB) :
    Except DbErr (Option VectorStoreConfig) :=
  match firstRow st.vectorStoreConfigs with
  | .error .recordNotFound => .ok none
  | .error e => .error e
  | .ok row =>
      .ok (some
        { enabled := row.enabled
          typ := row.typ
          config := match row.config with
            | some v => v
            | none => .null })

/-- `DbConfigStore.UpdateLogsStoreConfig`: delete-all then create, storing
the whole submitted config marshalled into the JSON column. -/
def UpdateLogsStoreConfig (st : ConfigDB) (config : LogStoreConfig) : ConfigDB :=
  { st with logStoreConfigs :=
      [{ enabled := config.enabled, typ := config.typ, config := some config }] }

/-- `DbConfigStore.GetLogsStoreConfig`: absent row is `nil, nil`; a NULL or
empty JSON column yields a config holding only the row's enabled flag;
otherwise the unmarshalled column is returned. -/
def GetLogsStoreConfig (st : ConfigDB) : Except DbErr (Option LogStoreConfig) :=
  match firstRow st.logStoreConfigs with
  | .error .recordNotFound => .ok none
  | .error e => .error e
  | .ok row =>
      match row.config with
      | none => .ok (some { enabled := row.enabled, typ := "", params := "" })
      | some c => .ok (some c)

/-! ## Vector-store secret merge (`ConfigHandler.mergeVectorStoreConfig`) -/

def VectorStoreTypeWeaviate : String := "weaviate"

def VectorStoreTypeRedis : String := "redis"

/-- `ConfigHandler.mergeVectorStoreConfig`: start from the new config; when
the old and new configs have the same backend variant, preserve one old field
per variant if the submitted one is the redaction sentinel and the old value
is non-empty.  The Weaviate arm guards the API key; the Redis arm guards the
address (`Addr`) — not the password, although its comment says password. -/
def mergeVectorStoreConfig (oldConfig newConfig : VectorStoreConfig) :
    VectorStoreConfig :=
  let merged := newConfig
  if oldConfig.typ = newConfig.typ then
    if newConfig.typ = VectorStoreTypeWeaviate then
      match oldConfig.config, newConfig.config with
      | .weav ow, .weav nw =>
          let mergedW :=
            if isRedacted nw.apiKey = true ∧ ow.apiKey ≠ ""
            then { nw with apiKey := ow.apiKey } else nw
          { merged with config := .weav mergedW }
      | _, _ => merged
    else if newConfig.typ = VectorStoreTypeRedis then
      match oldConfig.config, newConfig.config with
      | .red og, .red ng =>
          let mergedR :=
            if isRedacted ng.addr = true ∧ og.addr ≠ ""
            then { ng with addr := og.addr } else ng
          { merged with config := .red mergedR }
      | _, _ => merged
    else merged
  else merged

/-- Modelled from the spec: the value the claim expects `get()` to return —
the stored config with each secret field replaced by the redaction sentinel
(the redacted read path, `lib.GetVectorStoreConfigRedacted`, is not part of
the provided sources). -/
def redactVectorStoreConfigSpec (c : VectorStoreConfig) : VectorStoreConfig :=
  { c with config :=
      match c.config with
      | .weav w => .weav { w with apiKey := redactionSentinel }
      | .red r => .red { r with password := redactionSentinel }
      | v => v }

/-- C7: every ClientConfig update replaces the whole table with exactly one
row built from the submitted config alone — the result does not depend on
the prior state, so no field of a previous row survives — and a failure of
either statement rolls the transaction back, leaving the prior state. -/
theorem C7_client_config_delete_all_insert_one :
    (∀ st config, (UpdateClientConfig st config).clientConfigs =
        [toTableClientConfig config]) ∧
    (∀ st config, (UpdateClientConfig st config).clientConfigs.length = 1) ∧
    (∀ st st' config, (UpdateClientConfig st config).clientConfigs =
        (UpdateClientConfig st' config).clientConfigs) ∧
    (∀ st config deleteFails createFails,
        deleteFails = true ∨ createFails = true →
        (UpdateClientConfigTx st config deleteFails createFails).1 = st) := by
  refine ⟨fun st config => rfl, fun st config => rfl, fun st st' config => rfl, ?_⟩
  intro st config deleteFails createFails h
  rcases h with h | h
  · rw [UpdateClientConfigTx, if_pos h]
  · rw [UpdateClientConfigTx]
    by_cases hd : deleteFails = true
    · rw [if_pos hd]
    · rw [if_neg hd, if_pos h]

/-- Witness for C7's rollback clause at a concrete state and config. -/
theorem C7_client_config_delete_all_insert_one_witness :
    (UpdateClientConfigTx emptyConfigDB
        ⟨true, 100, [], true, true, false, false, [], 0⟩ false true).1 =
      emptyConfigDB :=
  C7_client_config_delete_all_insert_one.2.2.2 emptyConfigDB
    ⟨true, 100, [], true, true, false, false, [], 0⟩ false true (Or.inr rfl)

instance {ε α : Type} [DecidableEq ε] [DecidableEq α] :
    DecidableEq (Except ε α) := fun a b =>
  match a, b with
  | .ok x, .ok y =>
      if h : x = y then isTrue (by rw [h]) else isFalse (by intro hc; cases hc; exact h rfl)
  | .error x, .error y =>
      if h : x = y then isTrue (by rw [h]) else isFalse (by intro hc; cases hc; exact h rfl)
  | .ok _, .error _ => isFalse (by intro hc; cases hc)
  | .error _, .ok _ => isFalse (by intro hc; cases hc)

/-- The §8 round-trip input used to refute C8 as stated: a vector-store
config whose secret field holds a real plaintext value. -/
def c8X : VectorStoreConfig :=
  { enabled := true
    typ := "weaviate"
    config := .weav { scheme := "http", host := "localhost:8080",
                      apiKey := "sk-secret" } }

/-- Counterexample to C8 as stated: after `update(X)`, the cited store
getter does not return X with its secret field replaced by the redaction
sentinel — the stored plaintext round-trips (inside the serialized column). -/
theorem C8_roundtrip_counterexample :
    GetVectorStoreConfig (UpdateVectorStoreConfig emptyConfigDB c8X) ≠
      Except.ok (some (redactVectorStoreConfigSpec c8X)) := by
  decide

/-- C8 (amended): `update(X); get()` on the store-level getters returns the
stored value with secret fields in plaintext: equal to X for LogStoreConfig,
equal to X except the unpersisted `MaxRequestBodySizeMB` (returned as zero)
for ClientConfig, and equal to X with the inner config in its serialized
string form for VectorStoreConfig.  No getter substitutes the redaction
sentinel. -/
theorem C8_singleton_roundtrip_plaintext :
    (∀ st X, GetClientConfig (UpdateClientConfig st X) =
        .ok (some { X with maxRequestBodySizeMB := 0 })) ∧
    (∀ st X, GetLogsStoreConfig (UpdateLogsStoreConfig st X) = .ok (some X)) ∧
    (∀ st X, GetVectorStoreConfig (UpdateVectorStoreConfig st X) =
        .ok (some { enabled := X.enabled, typ := X.typ,
                    config := .jsonOf X.config })) :=
  ⟨fun _ _ => rfl, fun _ _ => rfl, fun _ _ => rfl⟩

/-- C10: when the singleton row is absent, each getter reports `nil, nil` —
absence is not surfaced as an error. -/
theorem C10_absent_singleton_returns_nil_nil (st : ConfigDB)
    (hc : st.clientConfigs = []) (hv : st.vectorStoreConfigs = [])
    (hl : st.logStoreConfigs = []) :
    GetClientConfig st = .ok none ∧
      GetVectorStoreConfig st = .ok none ∧
      GetLogsStoreConfig st = .ok none := by
  refine ⟨?_, ?_, ?_⟩
  · rw [GetClientConfig, firstRow, hc]
    rfl
  · rw [GetVectorStoreConfig, firstRow, hv]
    rfl
  · rw [GetLogsStoreConfig, firstRow, hl]
    rfl

/-- Witness for C10 at the fresh database. -/
theorem C10_absent_singleton_returns_nil_nil_witness :
    GetClientConfig emptyConfigDB = .ok none ∧
      GetVectorStoreConfig emptyConfigDB = .ok none ∧
      GetLogsStoreConfig emptyConfigDB = .ok none :=
  C10_absent_singleton_returns_nil_nil emptyConfigDB rfl rfl rfl

/-- The stored Redis config before the update (plaintext password). -/
def c2OldRedis : VectorStoreConfig :=
  { enabled := true
    typ := "redis"
    config := .red { addr := "localhost:6379", username := "",
                     password := "hunter2", db := 0 } }

/-- The submitted Redis config echoing the redacted password back. -/
def c2NewRedis : VectorStoreConfig :=
  { enabled := true
    typ := "redis"
    config := .red { addr := "localhost:6379", username := "",
                     password := redactionSentinel, db := 0 } }

/-- C2 failing input evaluated: for a same-variant Redis update whose
submitted password is the redaction sentinel, the merge leaves the config
unchanged — the sentinel is persisted as the password instead of the stored
plaintext "hunter2", because the Redis arm compares and merges `Addr`
(contradicting its own comment, which says it preserves the password). -/
theorem C2_redis_password_sentinel_persisted :
    mergeVectorStoreConfig c2OldRedis c2NewRedis = c2NewRedis ∧
    (mergeVectorStoreConfig c2OldRedis c2NewRedis).config ≠
      VSDyn.red { addr := "localhost:6379", username := "",
                  password := "hunter2", db := 0 } := by
  decide

/-! ## Backend migration (`DbHandler.UpdateDbState`)

`configstore.Config` with its custom `UnmarshalJSON` produces a typed
`*SQLiteConfig` / `*PostgresConfig` payload; re-marshalling one shape and
unmarshalling into the other yields Go zero values.  The external `pgloader`
invocation is a parameter returning its error text on a non-zero exit. -/

structure SQLiteConfig where
  path : String
deriving DecidableEq, Repr

structure PostgresConfig where
  host : String
  port : Int
  user : String
  password : String
  dbName : String
  sslMode : String
deriving DecidableEq, Repr

inductive StoreParams where
  | sqliteP (c : SQLiteConfig)
  | postgresP (c : PostgresConfig)
  | nullP
deriving DecidableEq, Repr

/-- `configstore.Config`. -/
structure StoreConfig where
  enabled : Bool
  typ : String
  config : StoreParams
deriving DecidableEq, Repr

/-- `lib.ConfigData` (the field the handler reads and writes). -/
structure ConfigData where
  configStoreConfig : Option StoreConfig
deriving DecidableEq, Repr

/-- `json.Marshal` then `json.Unmarshal` into `SQLiteConfig`: mismatched
shapes leave zero values. -/
def asSQLite : StoreParams → SQLiteConfig
  | .sqliteP c => c
  | _ => { path := "" }

/-- `json.Marshal` then `json.Unmarshal` into `PostgresConfig`. -/
def asPostgres : StoreParams → PostgresConfig
  | .postgresP c => c
  | _ => { host := "", port := 0, user := "", password := "", dbName := "",
           sslMode := "" }

/-- `utils.CreatePostgresLink`. -/
def CreatePostgresLink (c : PostgresConfig) : String :=
  "postgres://" ++ c.user ++ ":" ++ c.password ++ "@" ++ c.host ++ ":" ++
    toString c.port ++ "/" ++ c.dbName ++ "?sslmode=" ++ c.sslMode

/-- `configstore.MigrateFromSql`: run pgloader sqlite → postgres; a failing
run surfaces `pgloader failed: <error>`. -/
def MigrateFromSql (sqlitePath postgresLink : String)
    (tool : String → String → Except String Unit) : Except String Unit :=
  match tool ("sqlite:///" ++ sqlitePath) postgresLink with
  | .error e => .error ("pgloader failed: " ++ e)
  | .ok _ => .ok ()

/-- `configstore.MigrateFromPostgres`: run pgloader postgres → sqlite. -/
def MigrateFromPostgres (sqlitePath postgresLink : String)
    (tool : String → String → Except String Unit) : Except String Unit :=
  match tool postgresLink ("sqlite:///" ++ sqlitePath) with
  | .error e => .error ("pgloader failed: " ++ e)
  | .ok _ => .ok ()

inductive HttpResponse where
  | ok (cfg : StoreConfig)
  | err (status : Nat) (msg : String)
deriving DecidableEq, Repr

/-- The running config recorded in `config.json`, if the file exists and
holds one. -/
def oldConfigOf (file : Option ConfigData) : Option StoreConfig :=
  (match file with | some d => d | none => ⟨none⟩).configStoreConfig

/-- The handler's `oldType` computation: the recorded type, defaulting to
"sqlite" when nothing is recorded and the target is "postgres". -/
def oldTypeOf (oldConfig : Option StoreConfig) (newTyp : String) : String :=
  let t := match oldConfig with | some c => c.typ | none => ""
  if t = "" then (if newTyp = "postgres" then "sqlite" else t) else t

/-- The handler's `needsMigration` decision: a type change always migrates;
with an unchanged type, migrate when the marshalled connection parameters
differ. -/
def needsMigrationOf (oldConfig : Option StoreConfig)
    (newConfig : StoreConfig) : Bool :=
  let oldType := oldTypeOf oldConfig newConfig.typ
  match oldConfig with
  | none => decide (oldType ≠ "" ∧ oldType ≠ newConfig.typ)
  | some oc =>
      if oldType ≠ newConfig.typ then true
      else decide (oc.config ≠ newConfig.config)

/-- The migration phase of `DbHandler.UpdateDbState` (the checked variant):
invoke the transfer tool for the direction given by `oldType`; a failure is
turned into the 500 response text the handler sends. -/
def migrationStep (configDir : String) (oldConfig : Option StoreConfig)
    (newConfig : StoreConfig) (tool : String → String → Except String Unit) :
    Except (Nat × String) Unit :=
  if needsMigrationOf oldConfig newConfig then
    if oldTypeOf oldConfig newConfig.typ = "sqlite" then
      let sqliteCfg : SQLiteConfig :=
        match oldConfig with
        | some oc => asSQLite oc.config
        | none => { path := configDir ++ "/config.db" }
      let postgresCfg := asPostgres newConfig.config
      match MigrateFromSql sqliteCfg.path (CreatePostgresLink postgresCfg) tool with
      | .error e => .error (500, "SQLite -> Postgres migration failed: " ++ e)
      | .ok _ => .ok ()
    else if oldTypeOf oldConfig newConfig.typ = "postgres" then
      let postgresCfg : PostgresConfig :=
        match oldConfig with
        | some oc => asPostgres oc.config
        | none => { host := "", port := 0, user := "", password := "",
                    dbName := "", sslMode := "" }
      let sqliteCfg := asSQLite newConfig.config
      match MigrateFromPostgres sqliteCfg.path (CreatePostgresLink postgresCfg) tool with
      | .error e => .error (500, "Postgres -> SQLite migration failed: " ++ e)
      | .ok _ => .ok ()
    else .ok ()
  else .ok ()

/-- `DbHandler.UpdateDbState` (the variant that checks the migration result):
on a migration failure respond with the error and leave `config.json`
untouched; otherwise record the new config and respond with success. -/
def UpdateDbState (configDir : String) (file : Option ConfigData)
    (newConfig : StoreConfig) (tool : String → String → Except String Unit) :
    Option ConfigData × HttpResponse :=
  match migrationStep configDir (oldConfigOf file) newConfig tool with
  | .error ec => (file, .err ec.1 ec.2)
  | .ok _ =>
      (some { (match file with | some d => d | none => ⟨none⟩) with
                configStoreConfig := some newConfig },
       .ok newConfig)

/-- The other `DbHandler.UpdateDbState` in the repository: the migration runs
whenever a current type is recorded, but its result is only logged (third
component) — the new config is written and success returned regardless. -/
def UpdateDbStateV3 (file : Option ConfigData) (newConfig : StoreConfig)
    (tool : String → String → Except String Unit) :
    Option ConfigData × HttpResponse × Option String :=
  let configData : ConfigData := match file with | some d => d | none => ⟨none⟩
  let currentType :=
    match configData.configStoreConfig with | some c => c.typ | none => ""
  let logMsg : Option String :=
    if currentType ≠ "" then
      if currentType = "sqlite" then
        let sqliteCfg :=
          match configData.configStoreConfig with
          | some oc => asSQLite oc.config
          | none => { path := "" }
        let postgresCfg := asPostgres newConfig.config
        match MigrateFromSql ("sqlite://" ++ sqliteCfg.path)
            (CreatePostgresLink postgresCfg) tool with
        | .error e => some ("SQLite -> Postgres migration failed: " ++ e)
        | .ok _ => none
      else if currentType = "postgres" then
        let postgresCfg :=
          match configData.configStoreConfig with
          | some oc => asPostgres oc.config
          | none => { host := "", port := 0, user := "", password := "",
                      dbName := "", sslMode := "" }
        let sqliteCfg := asSQLite newConfig.config
        match MigrateFromPostgres (CreatePostgresLink postgresCfg)
            ("sqlite://" ++ sqliteCfg.path) tool with
        | .error e => some ("Postgres -> SQLite migration failed: " ++ e)
        | .ok _ => none
      else none
    else none
  ((some { configData with configStoreConfig := some newConfig }),
   .ok newConfig, logMsg)

lemma migrationStep_fail_sqlite (configDir : String)
    (oldConfig : Option StoreConfig) (newConfig : StoreConfig) (e : String)
    (hm : needsMigrationOf oldConfig newConfig = true)
    (ht : oldTypeOf oldConfig newConfig.typ = "sqlite") :
    migrationStep configDir oldConfig newConfig (fun _ _ => .error e) =
      .error (500, "SQLite -> Postgres migration failed: " ++
        ("pgloader failed: " ++ e)) := by
  rw [migrationStep.eq_def, if_pos hm, if_pos ht]
  cases oldConfig <;> rfl

lemma migrationStep_fail_postgres (configDir : String)
    (oldConfig : Option StoreConfig) (newConfig : StoreConfig) (e : String)
    (hm : needsMigrationOf oldConfig newConfig = true)
    (ht : oldTypeOf oldConfig newConfig.typ = "postgres") :
    migrationStep configDir oldConfig newConfig (fun _ _ => .error e) =
      .error (500, "Postgres -> SQLite migration failed: " ++
        ("pgloader failed: " ++ e)) := by
  rw [migrationStep.eq_def, if_pos hm, ht]
  rw [if_neg (by decide : ¬("postgres" : String) = "sqlite"),
    if_pos (rfl : ("postgres" : String) = "postgres")]
  cases oldConfig <;> rfl

/-- C3 (amended): in the `UpdateDbState` variant that checks the transfer
result, a migration attempt whose external tool fails leaves `config.json`
unchanged — the new backend is not recorded — and the handler responds with
a 500 error carrying the tool's error text. -/
theorem C3_migration_failure_aborts_swap (configDir : String)
    (file : Option ConfigData) (newConfig : StoreConfig) (e : String)
    (hm : needsMigrationOf (oldConfigOf file) newConfig = true)
    (ht : oldTypeOf (oldConfigOf file) newConfig.typ = "sqlite" ∨
          oldTypeOf (oldConfigOf file) newConfig.typ = "postgres") :
    (UpdateDbState configDir file newConfig (fun _ _ => Except.error e)).1 =
        file ∧
    ((UpdateDbState configDir file newConfig (fun _ _ => Except.error e)).2 =
        .err 500 ("SQLite -> Postgres migration failed: " ++
          ("pgloader failed: " ++ e)) ∨
     (UpdateDbState configDir file newConfig (fun _ _ => Except.error e)).2 =
        .err 500 ("Postgres -> SQLite migration failed: " ++
          ("pgloader failed: " ++ e))) := by
  rcases ht with ht | ht
  · rw [UpdateDbState.eq_def, migrationStep_fail_sqlite configDir _ _ e hm ht]
    exact ⟨rfl, Or.inl rfl⟩
  · rw [UpdateDbState.eq_def, migrationStep_fail_postgres configDir _ _ e hm ht]
    exact ⟨rfl, Or.inr rfl⟩

/-- The running sqlite config recorded in `config.json`. -/
def c3File : Option ConfigData :=
  some ⟨some { enabled := true, typ := "sqlite",
               config := .sqliteP ⟨"./bifrost.db"⟩ }⟩

/-- The submitted postgres target config. -/
def c3NewConfig : StoreConfig :=
  { enabled := true
    typ := "postgres"
    config := .postgresP ⟨"localhost", 5432, "user", "pass", "bifrost",
                          "disable"⟩ }

/-- Witness for C3 at a concrete sqlite → postgres migration whose tool
exits non-zero. -/
theorem C3_migration_failure_aborts_swap_witness :
    (UpdateDbState "/app" c3File c3NewConfig
        (fun _ _ => Except.error "exit status 1")).1 = c3File ∧
    ((UpdateDbState "/app" c3File c3NewConfig
        (fun _ _ => Except.error "exit status 1")).2 =
        .err 500 ("SQLite -> Postgres migration failed: " ++
          ("pgloader failed: " ++ "exit status 1")) ∨
     (UpdateDbState "/app" c3File c3NewConfig
        (fun _ _ => Except.error "exit status 1")).2 =
        .err 500 ("Postgres -> SQLite migration failed: " ++
          ("pgloader failed: " ++ "exit status 1"))) :=
  C3_migration_failure_aborts_swap "/app" c3File c3NewConfig "exit status 1"
    (by decide) (Or.inl (by decide))

/-- Counterexample to C3 as stated: in the repository's other `UpdateDbState`
variant the same failing sqlite → postgres transfer is only logged — the new
backend config is still written to `config.json` and the handler reports
success. -/
theorem C3_logged_variant_records_failed_swap :
    (UpdateDbStateV3 c3File c3NewConfig
        (fun _ _ => Except.error "exit status 1")).1 =
      some ⟨some c3NewConfig⟩ ∧
    (UpdateDbStateV3 c3File c3NewConfig
        (fun _ _ => Except.error "exit status 1")).2.1 = .ok c3NewConfig ∧
    (UpdateDbStateV3 c3File c3NewConfig
        (fun _ _ => Except.error "exit status 1")).2.2 =
      some ("SQLite -> Postgres migration failed: " ++
        ("pgloader failed: " ++ "exit status 1")) := by
  decide

/-! ## Governance entities (VirtualKey, Team, Customer, Budget, RateLimit)

The governance table definitions are not among the provided sources (only
their store operations are); their rows are modelled from the spec's data
model (§3): stable string ids, optional single Budget/RateLimit/parent
references, and a VirtualKey↔Key many-to-many association table. -/

structure TableBudget where
  id : String
  maxLimit : Int
  resetDuration : String
  currentUsage : Int
deriving DecidableEq, Repr

structure TableRateLimit where
  id : String
  limit : Int
  window : String
deriving DecidableEq, Repr

structure TableTeam where
  id : String
  name : String
  customerID : Option String
  budgetID : Option String
deriving DecidableEq, Repr

structure TableCustomer where
  id : String
  name : String
  budgetID : Option String
deriving DecidableEq, Repr

structure TableVirtualKey where
  id : String
  name : String
  teamID : Option String
  customerID : Option String
  budgetID : Option String
  rateLimitID : Option String
deriving DecidableEq, Repr

/-- The governance slice of the store: entity rows, the key table, and the
VirtualKey↔Key association table (virtual key id, key row id). -/
structure GovDB where
  virtualKeys : List TableVirtualKey
  vkKeys : List (String × Nat)
  keys : List TableKey
  teams : List TableTeam
  customers : List TableCustomer
  budgets : List TableBudget
  rateLimits : List TableRateLimit
deriving DecidableEq, Repr

/-- The in-memory `TableVirtualKey` value a caller passes to
`UpdateVirtualKey`, with its `Keys` association field. -/
structure VirtualKeySubmission where
  row : TableVirtualKey
  keys : List TableKey
deriving DecidableEq, Repr

/-- `txDB.Save(virtualKey)`: update by primary key, inserting if absent. -/
def saveVKRow (rows : List TableVirtualKey) (r : TableVirtualKey) :
    List TableVirtualKey :=
  if rows.any (fun x => x.id == r.id) then
    rows.map (fun x => if x.id == r.id then r else x)
  else rows ++ [r]

/-- `Association("Keys").Clear()`: drop this virtual key's association rows. -/
def clearVKAssociations (assoc : List (String × Nat)) (vkid : String) :
    List (String × Nat) :=
  assoc.filter (fun p => p.1 != vkid)

/-- `Association("Keys").Append(keys)`: add one association row per key. -/
def appendVKAssociations (assoc : List (String × Nat)) (vkid : String)
    (ks : List TableKey) : List (String × Nat) :=
  assoc ++ ks.map (fun k => (vkid, k.id))

/-- The three sequential statements of `DbConfigStore.UpdateVirtualKey`
(save the row, clear the association set, attach the submitted set), applied
up to a stop point `n` (0 = nothing ran, 3 = completed). -/
def applyVKSteps (db : GovDB) (vk : VirtualKeySubmission) (n : Nat) : GovDB :=
  let s1 := if 1 ≤ n then
      { db with virtualKeys := saveVKRow db.virtualKeys vk.row } else db
  let s2 := if 2 ≤ n then
      { s1 with vkKeys := clearVKAssociations s1.vkKeys vk.row.id } else s1
  if 3 ≤ n then
    { s2 with vkKeys := appendVKAssociations s2.vkKeys vk.row.id vk.keys }
  else s2

/-- `DbConfigStore.UpdateVirtualKey` run to completion. -/
def UpdateVirtualKey (db : GovDB) (vk : VirtualKeySubmission) : GovDB :=
  applyVKSteps db vk 3

/-- An `UpdateVirtualKey` execution that stops after `n` of the three
statements: with a caller-supplied transaction handle the partial work rolls
back; without one (`txDB = s.db`), the first `n` statements remain applied. -/
def runUpdateVirtualKey (inTx : Bool) (crashAfter : Option Nat) (db : GovDB)
    (vk : VirtualKeySubmission) : GovDB :=
  match crashAfter with
  | none => applyVKSteps db vk 3
  | some n => if inTx then db else applyVKSteps db vk n

/-- The key row ids currently associated with a virtual key. -/
def assocKeyIds (db : GovDB) (vkid : String) : List Nat :=
  (db.vkKeys.filter (fun p => p.1 == vkid)).map (·.2)

lemma assocKeyIds_after_update (db : GovDB) (vk : VirtualKeySubmission) :
    assocKeyIds (UpdateVirtualKey db vk) vk.row.id = vk.keys.map (·.id) := by
  rw [UpdateVirtualKey]
  show assocKeyIds
    { db with
      virtualKeys := saveVKRow db.virtualKeys vk.row
      vkKeys := appendVKAssociations
        (clearVKAssociations db.vkKeys vk.row.id) vk.row.id vk.keys } _ = _
  rw [assocKeyIds, appendVKAssociations, List.filter_append]
  have h1 : (clearVKAssociations db.vkKeys vk.row.id).filter
      (fun p => p.1 == vk.row.id) = [] := by
    rw [clearVKAssociations, List.filter_filter, List.filter_eq_nil_iff]
    intro p _
    cases h : (p.1 == vk.row.id) with
    | true => simp [h, bne]
    | false => simp [h]
  have h2 : (vk.keys.map (fun k => (vk.row.id, k.id))).filter
      (fun p => p.1 == vk.row.id) = vk.keys.map (fun k => (vk.row.id, k.id)) := by
    rw [List.filter_eq_self]
    intro p hp
    obtain ⟨k, _, hk⟩ := List.mem_map.mp hp
    rw [← hk]
    exact beq_self_eq_true _
  rw [h1, h2, List.nil_append, List.map_map]
  exact List.map_congr_left (fun k _ => rfl)

/-- C6 (amended): a completed VirtualKey update that resubmits the current
key set (for example, changing only the Budget) leaves the association set
unchanged; when the caller supplies a transaction handle, a failure at any
point rolls the whole update back, leaving the prior associations intact.
(Without a handle the three statements run independently — see the
counterexample.) -/
theorem C6_budget_update_preserves_associations :
    (∀ db vk, vk.keys.map (·.id) = assocKeyIds db vk.row.id →
        assocKeyIds (UpdateVirtualKey db vk) vk.row.id =
          assocKeyIds db vk.row.id) ∧
    (∀ db vk n, runUpdateVirtualKey true (some n) db vk = db) := by
  constructor
  · intro db vk h
    rw [assocKeyIds_after_update, h]
  · intro db vk n
    rfl

/-- The key row referenced by the example virtual key. -/
def c6KeyRow : TableKey :=
  { mkDbKey "openai" 1 ⟨"k1", "sk-abc", [], 1, none, none, none⟩ with id := 1 }

/-- A store with one virtual key associated to key row 1. -/
def c6Db : GovDB :=
  { virtualKeys := [⟨"vk1", "demo", none, none, some "b1", none⟩]
    vkKeys := [("vk1", 1)]
    keys := [c6KeyRow]
    teams := []
    customers := []
    budgets := [⟨"b1", 100, "1h", 0⟩]
    rateLimits := [] }

/-- A budget-only update resubmitting the same key set. -/
def c6Submission : VirtualKeySubmission :=
  { row := ⟨"vk1", "demo", none, none, some "b2", none⟩
    keys := [c6KeyRow] }

/-- Counterexample to C6 as stated: `UpdateVirtualKey` accepts being called
without a transaction handle, and then a failure between clear and attach
does NOT leave the prior associations intact — the association set is
empty afterwards. -/
theorem C6_crash_between_clear_and_attach_loses_associations :
    assocKeyIds (runUpdateVirtualKey false (some 2) c6Db c6Submission) "vk1"
        = [] ∧
    assocKeyIds c6Db "vk1" = [1] ∧
    assocKeyIds (runUpdateVirtualKey false (some 2) c6Db c6Submission) "vk1"
        ≠ assocKeyIds c6Db "vk1" := by
  decide

/-- Witness for C6 at the concrete budget-only update. -/
theorem C6_budget_update_preserves_associations_witness :
    assocKeyIds (UpdateVirtualKey c6Db c6Submission) "vk1" =
      assocKeyIds c6Db "vk1" :=
  C6_budget_update_preserves_associations.1 c6Db c6Submission (by decide)

/-! ## VirtualKey reads (`GetVirtualKeys` / `GetVirtualKey`) -/

/-- The projected key view selected by
`Preload("Keys", ... db.Select("id, key_id, models_json"))`: only the row
id, natural key id and model list columns — no secret value column. -/
structure TableKeyView where
  id : Nat
  keyID : String
  models : List String
deriving DecidableEq, Repr

def projKeyView (r : TableKey) : TableKeyView := ⟨r.id, r.keyID, r.models⟩

/-- A virtual key with its eagerly loaded expansions. -/
structure VirtualKeyExpanded where
  row : TableVirtualKey
  team : Option TableTeam
  customer : Option TableCustomer
  budget : Option TableBudget
  rateLimit : Option TableRateLimit
  keys : List TableKeyView
deriving DecidableEq, Repr

def lookupTeam (db : GovDB) (tid : Option String) : Option TableTeam :=
  tid.bind (fun i => db.teams.find? (fun t => t.id == i))

def lookupCustomer (db : GovDB) (cid : Option String) : Option TableCustomer :=
  cid.bind (fun i => db.customers.find? (fun c => c.id == i))

def lookupBudget (db : GovDB) (bid : Option String) : Option TableBudget :=
  bid.bind (fun i => db.budgets.find? (fun b => b.id == i))

def lookupRateLimit (db : GovDB) (rid : Option String) : Option TableRateLimit :=
  rid.bind (fun i => db.rateLimits.find? (fun r => r.id == i))

/-- The association-preloaded, column-projected key views of a virtual key. -/
def loadVKKeys (db : GovDB) (vkid : String) : List TableKeyView :=
  ((db.vkKeys.filter (fun p => p.1 == vkid)).map (·.2)).filterMap
    (fun kid => (db.keys.find? (fun r => r.id == kid)).map projKeyView)

/-- One row with its `Preload`ed Team, Customer, Budget, RateLimit and
projected Keys. -/
def expandVirtualKey (db : GovDB) (r : TableVirtualKey) : VirtualKeyExpanded :=
  { row := r
    team := lookupTeam db r.teamID
    customer := lookupCustomer db r.customerID
    budget := lookupBudget db r.budgetID
    rateLimit := lookupRateLimit db r.rateLimitID
    keys := loadVKKeys db r.id }

/-- `DbConfigStore.GetVirtualKeys`. -/
def GetVirtualKeys (db : GovDB) : List VirtualKeyExpanded :=
  db.virtualKeys.map (expandVirtualKey db)

/-- `DbConfigStore.GetVirtualKey` (absence surfaces as the record-not-found
error, unmapped). -/
def GetVirtualKey (db : GovDB) (i : String) : Except DbErr VirtualKeyExpanded :=
  match db.virtualKeys.find? (fun r => r.id == i) with
  | none => .error .recordNotFound
  | some r => .ok (expandVirtualKey db r)

/-- Overwriting every key row's secret value column. -/
def rewriteKeyValues (db : GovDB) (f : TableKey → String) : GovDB :=
  { db with keys := db.keys.map (fun r => { r with value := f r }) }

lemma loadVKKeys_value_blind (db : GovDB) (f : TableKey → String)
    (vkid : String) :
    loadVKKeys (rewriteKeyValues db f) vkid = loadVKKeys db vkid := by
  rw [loadVKKeys, loadVKKeys]
  have hfun : (fun kid =>
      ((rewriteKeyValues db f).keys.find? (fun r => r.id == kid)).map
        projKeyView) =
      (fun kid => (db.keys.find? (fun r => r.id == kid)).map projKeyView) := by
    funext kid
    show ((db.keys.map (fun r => { r with value := f r })).find?
        (fun r => r.id == kid)).map projKeyView = _
    rw [List.find?_map, Option.map_map]
    rfl
  rw [show (rewriteKeyValues db f).vkKeys = db.vkKeys from rfl, hfun]

lemma expandVirtualKey_value_blind (db : GovDB) (f : TableKey → String)
    (r : TableVirtualKey) :
    expandVirtualKey (rewriteKeyValues db f) r = expandVirtualKey db r := by
  rw [expandVirtualKey, expandVirtualKey, loadVKKeys_value_blind]
  rfl

/-- C9: every VirtualKey read eagerly loads the Budget, RateLimit, Team and
Customer of the row and the projected (id, key id, model list) views of its
associated keys; and both reads are blind to the key table's secret value
column — rewriting every stored secret arbitrarily leaves the results
unchanged, because that column is never selected. -/
theorem C9_virtual_key_reads_project_keys :
    (∀ db i v, GetVirtualKey db i = .ok v →
        v.team = lookupTeam db v.row.teamID ∧
        v.customer = lookupCustomer db v.row.customerID ∧
        v.budget = lookupBudget db v.row.budgetID ∧
        v.rateLimit = lookupRateLimit db v.row.rateLimitID ∧
        v.keys = loadVKKeys db v.row.id) ∧
    (∀ db f, GetVirtualKeys (rewriteKeyValues db f) = GetVirtualKeys db) ∧
    (∀ db f i, GetVirtualKey (rewriteKeyValues db f) i = GetVirtualKey db i) := by
  refine ⟨?_, ?_, ?_⟩
  · intro db i v h
    rw [GetVirtualKey.eq_def] at h
    cases hf : db.virtualKeys.find? (fun r => r.id == i) with
    | none => rw [hf] at h; cases h
    | some r =>
      rw [hf] at h
      cases h
      exact ⟨rfl, rfl, rfl, rfl, rfl⟩
  · intro db f
    rw [GetVirtualKeys, GetVirtualKeys,
      show (rewriteKeyValues db f).virtualKeys = db.virtualKeys from rfl]
    exact List.map_congr_left (fun r _ => expandVirtualKey_value_blind db f r)
  · intro db f i
    rw [GetVirtualKey.eq_def, GetVirtualKey.eq_def,
      show (rewriteKeyValues db f).virtualKeys = db.virtualKeys from rfl]
    cases hf : db.virtualKeys.find? (fun r => r.id == i) with
    | none => rfl
    | some r =>
      show Except.ok (expandVirtualKey (rewriteKeyValues db f) r) =
        Except.ok (expandVirtualKey db r)
      rw [expandVirtualKey_value_blind]

/-- A store with one fully related virtual key. -/
def c9Db : GovDB :=
  { virtualKeys := [⟨"vk1", "demo", some "t1", some "c1", some "b1",
                     some "rl1"⟩]
    vkKeys := [("vk1", 1)]
    keys := [c6KeyRow]
    teams := [⟨"t1", "team", some "c1", none⟩]
    customers := [⟨"c1", "cust", some "b1"⟩]
    budgets := [⟨"b1", 100, "1h", 0⟩]
    rateLimits := [⟨"rl1", 10, "1m"⟩] }

/-- Witness for C9 at the concrete store. -/
theorem C9_virtual_key_reads_project_keys_witness :
    (expandVirtualKey c9Db ⟨"vk1", "demo", some "t1", some "c1", some "b1",
        some "rl1"⟩).team =
      lookupTeam c9Db (expandVirtualKey c9Db ⟨"vk1", "demo", some "t1",
        some "c1", some "b1", some "rl1"⟩).row.teamID ∧
    GetVirtualKeys (rewriteKeyValues c9Db (fun _ => "XXX")) =
      GetVirtualKeys c9Db :=
  ⟨(C9_virtual_key_reads_project_keys.1 c9Db "vk1"
      (expandVirtualKey c9Db ⟨"vk1", "demo", some "t1", some "c1", some "b1",
        some "rl1"⟩) rfl).1,
   C9_virtual_key_reads_project_keys.2.1 c9Db (fun _ => "XXX")⟩

end Bifrost
